import Mathlib

/-!
# DVL A50 driver: protocol layer

A shallow embedding of the serial checksum table (`dvl_protocol.h`) and of the
report handler of the ROS 2 node (`dvl_a50_ros2.cpp`: `DvlA50Node::publish`,
`srv_send_command`, `srv_send_param`), followed by the properties of the
specification established over it.

Bytes are natural numbers below 256.  IEEE doubles that come out of a parsed
text record are finite, and are represented by the rational they denote.
-/

namespace DvlA50

/-! ## Serial checksum (`dvl_protocol.h`) -/

/-- The table `lookup_table[256]` of `dvl_protocol.h`, entry by entry. -/
def lookup_table : List Nat := [
  0x00, 0x07, 0x0E, 0x09, 0x1C, 0x1B, 0x12, 0x15,
  0x38, 0x3F, 0x36, 0x31, 0x24, 0x23, 0x2A, 0x2D,
  0x70, 0x77, 0x7E, 0x79, 0x6C, 0x6B, 0x62, 0x65,
  0x48, 0x4F, 0x46, 0x41, 0x54, 0x53, 0x5A, 0x5D,
  0xE0, 0xE7, 0xEE, 0xE9, 0xFC, 0xFB, 0xF2, 0xF5,
  0xD8, 0xDF, 0xD6, 0xD1, 0xC4, 0xC3, 0xCA, 0xCD,
  0x90, 0x97, 0x9E, 0x99, 0x8C, 0x8B, 0x82, 0x85,
  0xA8, 0xAF, 0xA6, 0xA1, 0xB4, 0xB3, 0xBA, 0xBD,
  0xC7, 0xC0, 0xC9, 0xCE, 0xDB, 0xDC, 0xD5, 0xD2,
  0xFF, 0xF8, 0xF1, 0xF6, 0xE3, 0xE4, 0xED, 0xEA,
  0xB7, 0xB0, 0xB9, 0xBE, 0xAB, 0xAC, 0xA5, 0xA2,
  0x8F, 0x88, 0x81, 0x86, 0x93, 0x94, 0x9D, 0x9A,
  0x27, 0x20, 0x29, 0x2E, 0x3B, 0x3C, 0x35, 0x32,
  0x1F, 0x18, 0x11, 0x16, 0x03, 0x04, 0x0D, 0x0A,
  0x57, 0x50, 0x59, 0x5E, 0x4B, 0x4C, 0x45, 0x42,
  0x6F, 0x68, 0x61, 0x66, 0x73, 0x74, 0x7D, 0x7A,
  0x89, 0x8E, 0x87, 0x80, 0x95, 0x92, 0x9B, 0x9C,
  0xB1, 0xB6, 0xBF, 0xB8, 0xAD, 0xAA, 0xA3, 0xA4,
  0xF9, 0xFE, 0xF7, 0xF0, 0xE5, 0xE2, 0xEB, 0xEC,
  0xC1, 0xC6, 0xCF, 0xC8, 0xDD, 0xDA, 0xD3, 0xD4,
  0x69, 0x6E, 0x67, 0x60, 0x75, 0x72, 0x7B, 0x7C,
  0x51, 0x56, 0x5F, 0x58, 0x4D, 0x4A, 0x43, 0x44,
  0x19, 0x1E, 0x17, 0x10, 0x05, 0x02, 0x0B, 0x0C,
  0x21, 0x26, 0x2F, 0x28, 0x3D, 0x3A, 0x33, 0x34,
  0x4E, 0x49, 0x40, 0x47, 0x52, 0x55, 0x5C, 0x5B,
  0x76, 0x71, 0x78, 0x7F, 0x6A, 0x6D, 0x64, 0x63,
  0x3E, 0x39, 0x30, 0x37, 0x22, 0x25, 0x2C, 0x2B,
  0x06, 0x01, 0x08, 0x0F, 0x1A, 0x1D, 0x14, 0x13,
  0xAE, 0xA9, 0xA0, 0xA7, 0xB2, 0xB5, 0xBC, 0xBB,
  0x96, 0x91, 0x98, 0x9F, 0x8A, 0x8D, 0x84, 0x83,
  0xDE, 0xD9, 0xD0, 0xD7, 0xC2, 0xC5, 0xCC, 0xCB,
  0xE6, 0xE1, 0xE8, 0xEF, 0xFA, 0xFD, 0xF4, 0xF3]

/-- One shift-and-conditionally-xor step of an 8-bit CRC register, most
significant bit first, polynomial `0x07`: the register is shifted left by one
bit, and the polynomial is xored in when the bit shifted out was set. -/
def crc8_bit_step (crc : Nat) : Nat :=
  if crc &&& 0x80 = 0 then (crc <<< 1) % 256 else ((crc <<< 1) ^^^ 0x07) % 256

/-- The CRC-8 of a single byte computed bit by bit: initial value 0 xored with
the byte, eight steps, nothing reflected, no final xor. -/
def crc8_bitwise (b : Nat) : Nat :=
  crc8_bit_step (crc8_bit_step (crc8_bit_step (crc8_bit_step
    (crc8_bit_step (crc8_bit_step (crc8_bit_step (crc8_bit_step (0 ^^^ b))))))))

/-- Modelled from the spec: the body of `crc8` (declared in `dvl_protocol.h`,
defined outside `src/`).  The running crc starts at 0 and, once per input
byte, becomes `lookup_table[crc ^ byte]`. -/
def crc8 (message : List Nat) : Nat :=
  message.foldl (fun crc b => lookup_table.getD (crc ^^^ b) 0) 0

/-- Modelled from the spec: `validate_frame` (no definition under `src/`).  The
checksum is recomputed over all bytes of the frame except the last and
compared with the last byte; a frame without a last byte is not valid. -/
def validate_frame (frame : List Nat) : Bool :=
  match frame.getLast? with
  | none => false
  | some c => decide (crc8 frame.dropLast = c)

/-- A buffer of bytes: every element is below 256. -/
def IsBytes (m : List Nat) : Prop := ∀ b ∈ m, b < 256

/-- The frame with bit `k` of the byte at position `i` inverted. -/
def flip_bit (frame : List Nat) (i k : Nat) : List Nat :=
  frame.set i (frame.getD i 0 ^^^ (1 <<< k))

/-! ## Records received from the sensor

`DvlA50::Message` is declared in `dvl_a50/dvl_a50.hpp`, outside `src/`; the
node uses it through `contains`, `operator[]`, `dump` and conversions to
`bool`, `double`, `uint64_t` and `std::string`, the interface of an
`nlohmann::json` value.  Reading `j[key]` on a mutable value creates a missing
member as null; reading a record never throws for a missing member, only the
conversion of the null that was read does. -/

/-- Modelled from the spec: the self-describing, key-tagged record type
`DvlA50::Message` (declared outside `src/`), a JSON value.  A number holds the
value it denotes. -/
inductive Json where
  | null
  | bool (b : Bool)
  | num (q : ℚ)
  | str (s : String)
  | arr (xs : List Json)
  | obj (members : List (String × Json))

/-- What a handler can throw: a record member of the wrong type
(`type_error`), a negative time point given to `rclcpp::Time`
(`runtime_error`), or a conversion of a double to an integer type that cannot
hold it, which the language leaves undefined (`undefined`). -/
inductive Thrown where
  | type_error
  | runtime_error
  | undefined
  deriving DecidableEq, Repr

/-- The value stored under `key` in a list of keyed entries, first match. -/
def lookup {α : Type} (key : String) : List (String × α) → Option α
  | [] => none
  | (k, v) :: rest => if k = key then some v else lookup key rest

/-- The call `res.contains(key)`: true exactly for an object with a member `key`. -/
def Json.contains (j : Json) (key : String) : Bool :=
  match j with
  | .obj members => (lookup key members).isSome
  | _ => false

/-- The value of `j[key]`.  On an object it is the member, or null when there
is no such member; on null it is null; on anything else the access throws. -/
def Json.at_key (j : Json) (key : String) : Except Thrown Json :=
  match j with
  | .obj members => .ok ((lookup key members).getD .null)
  | .null => .ok .null
  | _ => .error .type_error

/-- The value of `j[i]`.  On an array it is the element, or null beyond the
end; on null it is null; on anything else the access throws. -/
def Json.at_idx (j : Json) (i : Nat) : Except Thrown Json :=
  match j with
  | .arr xs => .ok (xs.getD i .null)
  | .null => .ok .null
  | _ => .error .type_error

/-- The record after `j[key]` has been evaluated on the mutable `j`: a member
that was absent has been created, holding null. -/
def Json.touch (j : Json) (key : String) : Json :=
  match j with
  | .obj members =>
    if (lookup key members).isSome then .obj members else .obj (members ++ [(key, .null)])
  | .null => .obj [(key, .null)]
  | other => other

/-- Conversion to `bool`: only a boolean converts. -/
def Json.get_bool : Json → Except Thrown Bool
  | .bool b => .ok b
  | _ => .error .type_error

/-- Conversion to `double`: only a number converts. -/
def Json.get_double : Json → Except Thrown ℚ
  | .num q => .ok q
  | _ => .error .type_error

/-- Conversion to `std::string`: only a string converts. -/
def Json.get_string : Json → Except Thrown String
  | .str s => .ok s
  | _ => .error .type_error

/-- The cast `static_cast<uint64_t>(d)` of a double: the fractional part is
dropped; outside the range of the target type the result is undefined. -/
def double_to_uint64 (d : ℚ) : Except Thrown Nat :=
  if -1 < d ∧ d < 2 ^ 64 then .ok (if 0 ≤ d then (Rat.floor d).toNat else 0)
  else .error .undefined

/-- Conversion to `uint64_t`: an integer is reduced modulo `2^64`, any other
number is cast as a double. -/
def Json.get_uint64 : Json → Except Thrown Nat
  | .num q => if q.den = 1 then .ok (q.num % 2 ^ 64).toNat else double_to_uint64 q
  | _ => .error .type_error

/-- Construction `rclcpp::Time(nanoseconds)` from an unsigned 64-bit value:
the argument is taken as `int64_t`, and a negative time point is refused. -/
def rclcpp_Time (nanoseconds : Nat) : Except Thrown Nat :=
  if nanoseconds < 2 ^ 63 then .ok nanoseconds else .error .runtime_error

/-- The nearest double of a natural number (round to nearest, ties to even):
below `2^53` the number itself, above it the 53 leading bits rounded. -/
def round_to_double (n : Nat) : Nat :=
  if n < 2 ^ 53 then n
  else
    let e := Nat.log2 n - 52
    let q := n >>> e
    let r := n % 2 ^ e
    let half := 2 ^ (e - 1)
    if r < half then q <<< e
    else if half < r then (q + 1) <<< e
    else if q % 2 = 0 then q <<< e
    else (q + 1) <<< e

/-- The stamp expression `rclcpp::Time(static_cast<uint64_t>(ts) * 1e9)` of the
dead-reckoning branch: `ts` is cut to an unsigned integer, the integer is
converted to double and multiplied by the double `1e9`, and the product is
taken as `int64_t` nanoseconds. -/
def dead_reckoning_stamp (ts : ℚ) : Except Thrown Nat :=
  match double_to_uint64 ts with
  | .error e => .error e
  | .ok seconds =>
    let product := round_to_double (round_to_double seconds * 1000000000)
    if product < 2 ^ 63 then .ok product else .error .undefined

/-! ## Messages handed to the publishers -/

/-- The message type `geometry_msgs::msg::Vector3`. -/
structure Vector3 where
  x : ℚ
  y : ℚ
  z : ℚ
  deriving DecidableEq, Repr

/-- Values of the field `velocity_mode`. -/
inductive VelocityMode where
  | DVL_MODE_BOTTOM
  | DVL_MODE_WATER
  deriving DecidableEq, Repr

/-- Values of the field `dvl_type`. -/
inductive DvlType where
  | DVL_TYPE_PISTON
  | DVL_TYPE_PHASED_ARRAY
  deriving DecidableEq, Repr

/-- Modelled from the spec: `marine_acoustic_msgs::msg::Dvl` (declared outside
`src/`), with the fields the node assigns; `range`, `beam_quality` and
`beam_velocity` are the single-valued fields the specification describes.
`course_gnd` holds the arguments `(y, x)` handed to `atan2` and `speed_gnd`
the argument handed to `sqrt`. -/
structure Dvl where
  frame_id : String
  stamp : Nat
  velocity_mode : VelocityMode
  dvl_type : DvlType
  velocity : Vector3
  velocity_covar : List ℚ
  altitude : ℚ
  course_gnd : ℚ × ℚ
  speed_gnd : ℚ
  num_good_beams : Nat
  sound_speed : ℚ
  beam_ranges_valid : Bool
  beam_velocities_valid : Bool
  range : ℚ
  beam_quality : ℚ
  beam_velocity : ℚ
  beam_unit_vec : List Vector3
  deriving DecidableEq, Repr

/-- Modelled from the spec: `nav_msgs::msg::Odometry` (declared outside
`src/`), with the fields the node assigns.  `covariance` is the 36-slot pose
covariance; `orientation` holds the roll, pitch and yaw handed to `setRPY`. -/
structure Odometry where
  frame_id : String
  stamp : Nat
  position : Vector3
  covariance : List ℚ
  orientation : Vector3
  deriving DecidableEq, Repr

/-- Severity of a log line. -/
inductive Severity where
  | info
  | warn
  | error
  deriving DecidableEq, Repr

/-- What a callback does to the outside: a log line, the release of a waiting
service call with a value (`promise.set_value`), a published message, or a
request sent to the sensor. -/
inductive Event where
  | log (severity : Severity)
  | set_value (promise : Nat) (value : Json)
  | velocity_pub (msg : Dvl)
  | odom_pub (msg : Odometry)
  | send_command (command : String)
  | set_param (param : String) (value : Bool)

/-! ## The node -/

/-- The map `pending_service_calls` from command name to the promise of the
service call that waits for the response; a promise is named by a number.
As in `std::map`, no two entries have the same key. -/
structure PendingMap where
  entries : List (String × Nat)
  unique_keys : (entries.map Prod.fst).Nodup

/-- The map without entries. -/
def PendingMap.empty : PendingMap := ⟨[], List.nodup_nil⟩

/-- The call `find(key)`: the promise stored under `key`, if any. -/
def PendingMap.find (m : PendingMap) (key : String) : Option Nat :=
  lookup key m.entries

/-- The call `insert(make_pair(key, promise))`: the pair is added when the map
has no entry for `key`; otherwise the map is left as it is and the pair, with
the promise in it, is destroyed.  The boolean tells whether the pair was added. -/
def PendingMap.insert (m : PendingMap) (key : String) (promise : Nat) : PendingMap × Bool :=
  if h : key ∈ m.entries.map Prod.fst then (m, false)
  else
    (⟨m.entries ++ [(key, promise)], by
      rw [List.map_append, List.nodup_append]
      refine ⟨m.unique_keys, List.nodup_singleton _, ?_⟩
      intro a ha hb
      rw [List.map_singleton, List.mem_singleton] at hb
      have hk : a = key := hb
      exact h (hk ▸ ha)⟩, true)

/-- The call `erase(it)` on the iterator found for `key`. -/
def PendingMap.erase (m : PendingMap) (key : String) : PendingMap :=
  ⟨m.entries.filter (fun e => decide (e.1 ≠ key)),
    List.Nodup.sublist ((List.filter_sublist m.entries).map Prod.fst) m.unique_keys⟩

/-- The members of `DvlA50Node` that the handlers read or write. -/
structure NodeState where
  frame : String
  speed_of_sound : Int
  old_altitude : ℚ
  pending_service_calls : PendingMap

/-- What one run of a callback leaves: the node afterwards, what was done to
the outside, and the exception that ended the callback, if one was thrown. -/
structure Outcome where
  state : NodeState
  events : List Event
  thrown : Option Thrown

/-- How `future.get()` of a service call proceeds: it waits for the promise to
be set, or throws at once because the promise was destroyed unset. -/
inductive Await where
  | waits
  | broken_promise
  deriving DecidableEq, Repr

/-- The member `j[key]` converted to `double`. -/
def read_double (j : Json) (key : String) : Except Thrown ℚ :=
  (j.at_key key).bind Json.get_double

/-- The member `j[key]` converted to `bool`. -/
def read_bool (j : Json) (key : String) : Except Thrown Bool :=
  (j.at_key key).bind Json.get_bool

/-- The entry `double(res["covariance"][i][j])`. -/
def read_covariance (res : Json) (i j : Nat) : Except Thrown ℚ :=
  (res.at_key "covariance").bind fun rows =>
    (rows.at_idx i).bind fun row => (row.at_idx j).bind Json.get_double

/-- The two nested loops that copy the covariance: slot `i*3 + j` receives
entry `[i][j]`, rows first. -/
def copy_covariance (res : Json) (covar : List ℚ) : Except Thrown (List ℚ) :=
  [0, 1, 2].foldlM (fun acc i =>
    [0, 1, 2].foldlM (fun acc j =>
      (read_covariance res i j).bind fun val => .ok (acc.set (i * 3 + j) val)) acc) covar

/-- The sub-record `res["transducers"][beam]`. -/
def transducer (res : Json) (beam : Nat) : Except Thrown Json :=
  (res.at_key "transducers").bind fun all => all.at_idx beam

/-- The four fixed beam vectors assigned to `msg.beam_unit_vec[0..3]`. -/
def beam_unit_vec : List Vector3 :=
  [ ⟨-0.6532814824381883,  0.6532814824381883, 0.38268343236508984⟩,
    ⟨-0.6532814824381883, -0.6532814824381883, 0.38268343236508984⟩,
    ⟨ 0.6532814824381883, -0.6532814824381883, 0.38268343236508984⟩,
    ⟨ 0.6532814824381883,  0.6532814824381883, 0.38268343236508984⟩ ]

/-- A freshly constructed velocity message: numbers are zero, flags false. -/
def Dvl.fresh : Dvl :=
  { frame_id := "", stamp := 0,
    velocity_mode := .DVL_MODE_BOTTOM, dvl_type := .DVL_TYPE_PISTON,
    velocity := ⟨0, 0, 0⟩, velocity_covar := List.replicate 9 0, altitude := 0,
    course_gnd := (0, 0), speed_gnd := 0, num_good_beams := 0, sound_speed := 0,
    beam_ranges_valid := false, beam_velocities_valid := false,
    range := 0, beam_quality := 0, beam_velocity := 0,
    beam_unit_vec := List.replicate 4 ⟨0, 0, 0⟩ }

/-- A freshly constructed odometry message. -/
def Odometry.fresh : Odometry :=
  { frame_id := "", stamp := 0, position := ⟨0, 0, 0⟩,
    covariance := List.replicate 36 0, orientation := ⟨0, 0, 0⟩ }

/-- The velocity branch of `publish` up to the reading of the altitude: header,
mode and type, velocity and covariance.  The result is the message so far and
`current_altitude`. -/
def velocity_head (st : NodeState) (res : Json) : Except Thrown (Dvl × ℚ) :=
  ((res.at_key "time_of_validity").bind Json.get_uint64).bind fun tov =>
  (rclcpp_Time (tov * 1000 % 2 ^ 64)).bind fun stamp =>
  (read_double res "vx").bind fun vx =>
  (read_double res "vy").bind fun vy =>
  (read_double res "vz").bind fun vz =>
  (copy_covariance res Dvl.fresh.velocity_covar).bind fun covar =>
  (read_double res "altitude").bind fun current_altitude =>
  .ok ({ Dvl.fresh with
          frame_id := st.frame, stamp := stamp,
          velocity_mode := .DVL_MODE_BOTTOM, dvl_type := .DVL_TYPE_PISTON,
          velocity := ⟨vx, vy, vz⟩, velocity_covar := covar }, current_altitude)

/-- The altitude statement of the velocity branch,
`if (current_altitude >= 0.0 && res["velocity_valid"]) old_altitude = msg.altitude = current_altitude; else msg.altitude = old_altitude;`.
The result is the new `old_altitude` and `msg.altitude`.  The flag is read
only when the altitude is not negative. -/
def altitude_holdover (old_altitude current_altitude : ℚ) (res : Json) :
    Except Thrown (ℚ × ℚ) :=
  if 0 ≤ current_altitude then
    match read_bool res "velocity_valid" with
    | .error e => .error e
    | .ok true => .ok (current_altitude, current_altitude)
    | .ok false => .ok (old_altitude, old_altitude)
  else .ok (old_altitude, old_altitude)

/-- The four members of a beam sub-record that the loop reads. -/
structure Beam where
  beam_valid : Bool
  distance : ℚ
  rssi : ℚ
  velocity : ℚ
  deriving DecidableEq, Repr

/-- The four reads of one pass of the loop over the beams, in the order of the
statements: `bool(...["beam_valid"])`, `["distance"]`, `["rssi"]`, `["velocity"]`. -/
def read_beam (res : Json) (beam : Nat) : Except Thrown Beam :=
  ((transducer res beam).bind fun t => read_bool t "beam_valid").bind fun beam_valid =>
  ((transducer res beam).bind fun t => read_double t "distance").bind fun distance =>
  ((transducer res beam).bind fun t => read_double t "rssi").bind fun rssi =>
  ((transducer res beam).bind fun t => read_double t "velocity").bind fun velocity =>
  .ok ⟨beam_valid, distance, rssi, velocity⟩

/-- One pass of the loop over the beams: the validity flag is added to
`num_good_beams` (an unsigned 8-bit field), and `range`, `beam_quality` and
`beam_velocity` are assigned from the sub-record of this beam. -/
def beam_step (res : Json) (msg : Dvl) (beam : Nat) : Except Thrown Dvl :=
  (read_beam res beam).bind fun b =>
  .ok { msg with
        num_good_beams := (msg.num_good_beams + b.beam_valid.toNat) % 256,
        range := b.distance, beam_quality := b.rssi, beam_velocity := b.velocity }

/-- The loop `for (size_t beam = 0; beam < 4; beam++)`. -/
def beam_loop (res : Json) (msg : Dvl) : Except Thrown Dvl :=
  [0, 1, 2, 3].foldlM (beam_step res) msg

/-- The velocity branch of `publish` after the altitude statement: course and
speed, sound speed, validity flags, the loop over the beams and the fixed
beam vectors. -/
def velocity_tail (st : NodeState) (res : Json) (msg : Dvl) : Except Thrown Dvl :=
  let msg := { msg with
               course_gnd := (msg.velocity.y, msg.velocity.x),
               speed_gnd := msg.velocity.x * msg.velocity.x + msg.velocity.y * msg.velocity.y,
               sound_speed := (st.speed_of_sound : ℚ),
               beam_ranges_valid := true }
  (read_bool res "velocity_valid").bind fun velocity_valid =>
  (beam_loop res { msg with beam_velocities_valid := velocity_valid }).bind fun msg =>
  .ok { msg with beam_unit_vec := beam_unit_vec }

/-- The branch of `publish` for a record with a member "altitude". -/
def velocity_report (st : NodeState) (res : Json) : Outcome :=
  match velocity_head st res with
  | .error e => ⟨st, [], some e⟩
  | .ok (msg, current_altitude) =>
    match altitude_holdover st.old_altitude current_altitude res with
    | .error e => ⟨st, [], some e⟩
    | .ok (old_altitude, altitude) =>
      match velocity_tail st res { msg with altitude := altitude } with
      | .error e => ⟨{ st with old_altitude := old_altitude }, [], some e⟩
      | .ok msg => ⟨{ st with old_altitude := old_altitude }, [.velocity_pub msg], none⟩

/-- The odometry message of the dead-reckoning branch. -/
def dead_reckoning_msg (st : NodeState) (res : Json) : Except Thrown Odometry :=
  ((read_double res "ts").bind dead_reckoning_stamp).bind fun stamp =>
  (read_double res "x").bind fun x =>
  (read_double res "y").bind fun y =>
  (read_double res "z").bind fun z =>
  (read_double res "std").bind fun std_dev =>
  (read_double res "roll").bind fun roll =>
  (read_double res "pitch").bind fun pitch =>
  (read_double res "yaw").bind fun yaw =>
  .ok { frame_id := st.frame, stamp := stamp, position := ⟨x, y, z⟩,
        covariance :=
          ((Odometry.fresh.covariance.set 0 std_dev).set 7 std_dev).set 14 std_dev,
        orientation := ⟨roll, pitch, yaw⟩ }

/-- The branch of `publish` for a record with a member "pitch". -/
def dead_reckoning_report (st : NodeState) (res : Json) : Outcome :=
  match dead_reckoning_msg st res with
  | .error e => ⟨st, [], some e⟩
  | .ok msg => ⟨st, [.odom_pub msg], none⟩

/-- The record `res` as it is when the promise is set: the log line of a
failed command has read `res["error_message"]`, the log line of `get_config`
has read `res["result"]`. -/
def logged (res : Json) (trigger : String) (success : Bool) : Json :=
  let res := if success then res else res.touch "error_message"
  if trigger = "get_config" then res.touch "result" else res

/-- The log lines of the command-response branch. -/
def response_log (trigger : String) (success : Bool) : List Event :=
  [.log (if success then .info else .error)] ++
    (if trigger = "get_config" then [.log .info] else [])

/-- The branch of `publish` for a record with a member "response_to": the
result is logged, and a service call pending under the command name is
released with the record and taken out of the map. -/
def command_response (st : NodeState) (res : Json) : Outcome :=
  match (res.at_key "response_to").bind Json.get_string with
  | .error e => ⟨st, [], some e⟩
  | .ok trigger =>
    match read_bool res "success" with
    | .error e => ⟨st, [], some e⟩
    | .ok success =>
      match st.pending_service_calls.find trigger with
      | some promise =>
        ⟨{ st with pending_service_calls := st.pending_service_calls.erase trigger },
          response_log trigger success ++ [.set_value promise (logged res trigger success)],
          none⟩
      | none => ⟨st, response_log trigger success, none⟩

/-- The timer callback `DvlA50Node::publish`, on the record `res` that
`dvl.receive()` returned. -/
def publish (st : NodeState) (res : Json) : Outcome :=
  if res.contains "response_to" then command_response st res
  else if res.contains "altitude" then velocity_report st res
  else if res.contains "pitch" then dead_reckoning_report st res
  else ⟨st, [.log .warn], none⟩

/-- The service callback `DvlA50Node::srv_send_command` up to `future.get()`:
a promise is created and inserted under the command name, and the command is
sent to the sensor. -/
def srv_send_command (st : NodeState) (command : String) (promise : Nat) :
    NodeState × List Event × Await :=
  let inserted := st.pending_service_calls.insert command promise
  ({ st with pending_service_calls := inserted.1 }, [.send_command command],
    if inserted.2 then .waits else .broken_promise)

/-- The service callback `DvlA50Node::srv_send_param` up to `future.get()`:
the promise is inserted under the name "set_config". -/
def srv_send_param (st : NodeState) (param : String) (value : Bool) (promise : Nat) :
    NodeState × List Event × Await :=
  let inserted := st.pending_service_calls.insert "set_config" promise
  ({ st with pending_service_calls := inserted.1 }, [.set_param param value],
    if inserted.2 then .waits else .broken_promise)

/-- Successive runs of the timer callback on the records received, in order;
an exception that leaves a callback ends the node. -/
def publish_all (st : NodeState) : List Json → NodeState × List Event
  | [] => (st, [])
  | res :: rest =>
    match (publish st res).thrown with
    | some _ => ((publish st res).state, (publish st res).events)
    | none =>
      ((publish_all (publish st res).state rest).1,
        (publish st res).events ++ (publish_all (publish st res).state rest).2)

/-- The velocity messages among the events, in order. -/
def velocity_outputs : List Event → List Dvl
  | [] => []
  | .velocity_pub msg :: rest => msg :: velocity_outputs rest
  | _ :: rest => velocity_outputs rest

/-- The odometry messages among the events, in order. -/
def odom_outputs : List Event → List Odometry
  | [] => []
  | .odom_pub msg :: rest => msg :: odom_outputs rest
  | _ :: rest => odom_outputs rest

/-- The promises set among the events, each with the value it was given. -/
def released : List Event → List (Nat × Json)
  | [] => []
  | .set_value promise value :: rest => (promise, value) :: released rest
  | _ :: rest => released rest

/-- A command response naming the command `n`, with the success flag
`success`: the member `response_to` is the string `n` and the member `success`
is the boolean `success`.  Any other member may be there or not. -/
def IsCommandResponse (res : Json) (n : String) (success : Bool) : Prop :=
  res.contains "response_to" = true ∧
  res.at_key "response_to" = .ok (.str n) ∧
  read_bool res "success" = .ok success

/-- The altitudes of the velocity messages among the events, in order. -/
def emitted_altitudes (events : List Event) : List ℚ :=
  (velocity_outputs events).map Dvl.altitude

/-- The altitude and the validity flag that a velocity report carries, as the
altitude statement reads them. -/
def altitude_sample (res : Json) : ℚ × Bool :=
  (match read_double res "altitude" with
    | .ok altitude => altitude
    | .error _ => 0,
   match read_bool res "velocity_valid" with
    | .ok velocity_valid => velocity_valid
    | .error _ => false)

/-- The altitude-holdover rule in the words of the specification: a report
whose altitude is not negative and whose validity flag is set emits its own
altitude, which becomes the last good altitude; any other report emits the
last good altitude and leaves it as it is.  The result is the list of emitted
altitudes and the last good altitude at the end. -/
def holdover (last_good : ℚ) : List (ℚ × Bool) → List ℚ × ℚ
  | [] => ([], last_good)
  | (altitude, valid) :: rest =>
    if 0 ≤ altitude ∧ valid = true then
      (altitude :: (holdover altitude rest).1, (holdover altitude rest).2)
    else (last_good :: (holdover last_good rest).1, (holdover last_good rest).2)

/-- A velocity report that the velocity branch of `publish` handles to the end:
no member `response_to`, a member `altitude`, and every member that the branch
reads is there and of the type it is converted to. -/
def IsVelocityReport (res : Json) : Prop :=
  res.contains "response_to" = false ∧ res.contains "altitude" = true ∧
  ∀ st : NodeState, (publish st res).thrown = none

/-- A send that is refused as a duplicate, in the words of the specification:
`send` registers the request, "failing with `DuplicateRequest` if one is
already registered", before it transmits the command; a send refused at that
point leaves the node as it was and transmits nothing. -/
def RefusedAsDuplicate (st : NodeState) (result : NodeState × List Event × Await) : Prop :=
  result.1 = st ∧ result.2.1 = []

/-! ## Sample records and a sample node -/

/-- A node as `on_configure` leaves it, with no service call pending and some
value in the member `old_altitude`, which no constructor writes. -/
def sample_node : NodeState :=
  { frame := "dvl_a50_link", speed_of_sound := 1500, old_altitude := -7,
    pending_service_calls := PendingMap.empty }

/-- A response of the sensor to the command `command`. -/
def sample_response (command : String) (success : Bool) : Json :=
  .obj [("response_to", .str command), ("success", .bool success),
        ("error_message", .str ""), ("result", .null),
        ("format", .str "json_v3.1"), ("type", .str "response")]

/-- A beam sub-record. -/
def sample_transducer (id : Nat) (beam_valid : Bool) (distance rssi velocity : ℚ) : Json :=
  .obj [("id", .num id), ("velocity", .num velocity), ("distance", .num distance),
        ("rssi", .num rssi), ("nsd", .num (-95)), ("beam_valid", .bool beam_valid)]

/-- A velocity report of the sensor with the given altitude and validity flag. -/
def sample_velocity (altitude : ℚ) (velocity_valid : Bool) : Json :=
  .obj [("time", .num 106), ("vx", .num 3), ("vy", .num 4), ("vz", .num 0),
        ("fom", .num 0),
        ("covariance", .arr [.arr [.num 1, .num 0, .num 0], .arr [.num 0, .num 1, .num 0],
          .arr [.num 0, .num 0, .num 1]]),
        ("altitude", .num altitude),
        ("transducers", .arr [sample_transducer 0 true 1 (-30) 0,
          sample_transducer 1 false 2 (-31) 1, sample_transducer 2 true 3 (-32) 2,
          sample_transducer 3 false 4 (-33) 5]),
        ("velocity_valid", .bool velocity_valid), ("status", .num 0),
        ("format", .str "json_v3.1"), ("type", .str "velocity"),
        ("time_of_validity", .num 1638191471563017),
        ("time_of_transmission", .num 1638191471752336)]

/-- A dead-reckoning report of the sensor with the given time stamp. -/
def sample_position (ts : ℚ) : Json :=
  .obj [("ts", .num ts), ("x", .num 1), ("y", .num 2), ("z", .num 3), ("std", .num 0),
        ("roll", .num 0), ("pitch", .num 0), ("yaw", .num 0),
        ("type", .str "position_local"), ("status", .num 0),
        ("format", .str "json_v3.1")]

/-- The three velocity reports of the holdover example of the specification:
altitude 5.0 and valid, altitude -1.0 and valid, altitude 6.0 and not valid. -/
def sample_reports : List Json :=
  [sample_velocity 5 true, sample_velocity (-1) true, sample_velocity 6 false]

/-- The command response of the correlation example of the specification,
`CommandResponse{name:"get_config", success:true}`: no error message and no
result. -/
def bare_response : Json :=
  .obj [("response_to", .str "get_config"), ("success", .bool true)]

/-- A record with both a member `response_to` and a member `altitude`: a
velocity report into which the two members of a command response were put. -/
def ambiguous_record : Json :=
  .obj [("response_to", .str "get_config"), ("success", .bool true),
        ("vx", .num 3), ("vy", .num 4), ("vz", .num 0),
        ("covariance", .arr [.arr [.num 1, .num 0, .num 0], .arr [.num 0, .num 1, .num 0],
          .arr [.num 0, .num 0, .num 1]]),
        ("altitude", .num 5),
        ("transducers", .arr [sample_transducer 0 true 1 (-30) 0,
          sample_transducer 1 true 2 (-31) 1, sample_transducer 2 true 3 (-32) 2,
          sample_transducer 3 true 4 (-33) 5]),
        ("velocity_valid", .bool true), ("time_of_validity", .num 1638191471563017)]

/-! ## Checksum table and frame validation -/

theorem lookup_table_lt : ∀ i : Fin 256, lookup_table.getD i.val 0 < 256 := by
  decide!

/-- Every entry of the table stands at one index only: searching the table for
the entry at `i` finds `i`. -/
theorem lookup_table_indexOf :
    ∀ i : Fin 256, lookup_table.indexOf (lookup_table.getD i.val 0) = i.val := by
  decide!

theorem lookup_table_injective (i j : Fin 256)
    (h : lookup_table.getD i.val 0 = lookup_table.getD j.val 0) : i = j := by
  have hi := lookup_table_indexOf i
  rw [h, lookup_table_indexOf j] at hi
  exact Fin.ext hi.symm

theorem xor_byte_lt {a b : Nat} (ha : a < 256) (hb : b < 256) : a ^^^ b < 256 :=
  Nat.xor_lt_two_pow (n := 8) ha hb

/-- One table step of `crc8`. -/
theorem crc8_step_lt {c b : Nat} (hc : c < 256) (hb : b < 256) :
    lookup_table.getD (c ^^^ b) 0 < 256 :=
  lookup_table_lt ⟨c ^^^ b, xor_byte_lt hc hb⟩

theorem crc8_step_ne {c d a b : Nat} (hc : c < 256) (hd : d < 256) (ha : a < 256)
    (hb : b < 256) (h : c ^^^ a ≠ d ^^^ b) :
    lookup_table.getD (c ^^^ a) 0 ≠ lookup_table.getD (d ^^^ b) 0 := by
  intro he
  have := lookup_table_injective ⟨c ^^^ a, xor_byte_lt hc ha⟩ ⟨d ^^^ b, xor_byte_lt hd hb⟩ he
  exact h (Fin.mk.inj_iff.mp this)

theorem crc8_fold_lt (bs : List Nat) (hbs : IsBytes bs) (c : Nat) (hc : c < 256) :
    bs.foldl (fun crc b => lookup_table.getD (crc ^^^ b) 0) c < 256 := by
  induction bs generalizing c with
  | nil => simpa using hc
  | cons b bs ih =>
    simp only [List.foldl_cons]
    exact ih (fun x hx => hbs x (List.mem_cons_of_mem _ hx)) _
      (crc8_step_lt hc (hbs b (List.mem_cons_self _ _)))

theorem crc8_fold_ne (bs : List Nat) (hbs : IsBytes bs) (c d : Nat) (hc : c < 256)
    (hd : d < 256) (h : c ≠ d) :
    bs.foldl (fun crc b => lookup_table.getD (crc ^^^ b) 0) c ≠
      bs.foldl (fun crc b => lookup_table.getD (crc ^^^ b) 0) d := by
  induction bs generalizing c d with
  | nil => simpa using h
  | cons b bs ih =>
    have hb : b < 256 := hbs b (List.mem_cons_self _ _)
    simp only [List.foldl_cons]
    refine ih (fun x hx => hbs x (List.mem_cons_of_mem _ hx)) _ _
      (crc8_step_lt hc hb) (crc8_step_lt hd hb) (crc8_step_ne hc hd hb hb ?_)
    intro he
    exact h (Nat.xor_left_injective he)

theorem crc8_lt (m : List Nat) (hm : IsBytes m) : crc8 m < 256 :=
  crc8_fold_lt m hm 0 (by decide)

theorem xor_bit_ne (b k : Nat) : b ^^^ (1 <<< k) ≠ b := by
  intro h
  have h2 : b ^^^ (1 <<< k) = b ^^^ 0 := by simpa using h
  have h3 : 1 <<< k = 0 := Nat.xor_right_injective h2
  simp [Nat.shiftLeft_eq] at h3

theorem xor_bit_lt {b k : Nat} (hb : b < 256) (hk : k < 8) : b ^^^ (1 <<< k) < 256 := by
  refine xor_byte_lt hb ?_
  interval_cases k <;> decide

theorem validate_frame_append (m : List Nat) (c : Nat) :
    validate_frame (m ++ [c]) = decide (crc8 m = c) := by
  simp [validate_frame]

/-- Flipping a bit of a payload byte changes the checksum. -/
theorem crc8_set_ne (m : List Nat) (hm : IsBytes m) (i k : Nat) (hi : i < m.length)
    (hk : k < 8) : crc8 (m.set i (m.getD i 0 ^^^ (1 <<< k))) ≠ crc8 m := by
  obtain ⟨pre, b, post, rfl, hlen⟩ : ∃ pre b post, m = pre ++ b :: post ∧ pre.length = i := by
    refine ⟨m.take i, m.get ⟨i, hi⟩, m.drop (i + 1), ?_, ?_⟩
    · simp
    · simp [Nat.le_of_lt hi]
  subst hlen
  have hpre : IsBytes pre := fun x hx => hm x (by simp [hx])
  have hb : b < 256 := hm b (by simp)
  have hpost : IsBytes post := fun x hx => hm x (by simp [hx])
  have hset : (pre ++ b :: post).set pre.length
      ((pre ++ b :: post).getD pre.length 0 ^^^ (1 <<< k)) = pre ++ (b ^^^ (1 <<< k)) :: post := by
    rw [List.getD_eq_getElem?_getD, List.getElem?_append_right (Nat.le_refl _)]
    simp
  rw [hset]
  simp only [crc8, List.foldl_append, List.foldl_cons]
  have hc := crc8_fold_lt pre hpre 0 (by decide)
  have hb2 := xor_bit_lt hb hk
  refine crc8_fold_ne post hpost _ _ (crc8_step_lt hc hb2) (crc8_step_lt hc hb)
    (crc8_step_ne hc hc hb2 hb ?_)
  intro he
  exact xor_bit_ne b k (Nat.xor_right_injective he)

/-! ## Keyed lists -/

theorem lookup_eq_none_iff {α : Type} (key : String) (l : List (String × α)) :
    lookup key l = none ↔ key ∉ l.map Prod.fst := by
  induction l with
  | nil => simp [lookup]
  | cons e rest ih =>
    obtain ⟨k, v⟩ := e
    by_cases h : k = key
    · simp [lookup, h]
    · simp [lookup, h, ih, Ne.symm h]

theorem lookup_append_singleton_self {α : Type} (key : String) (v : α)
    (l : List (String × α)) (h : lookup key l = none) :
    lookup key (l ++ [(key, v)]) = some v := by
  induction l with
  | nil => simp [lookup]
  | cons e rest ih =>
    obtain ⟨k, w⟩ := e
    by_cases hk : k = key
    · simp [lookup, hk] at h
    · simp only [lookup, hk, if_false] at h
      simp [lookup, hk, ih h]

theorem lookup_filter_ne {α : Type} (key n : String) (l : List (String × α))
    (h : key ≠ n) : lookup key (l.filter (fun e => decide (e.1 ≠ n))) = lookup key l := by
  induction l with
  | nil => rfl
  | cons e rest ih =>
    obtain ⟨k, w⟩ := e
    by_cases hk : k = n
    · have hkk : ¬ k = key := fun hh => h (hh ▸ hk)
      rw [List.filter_cons_of_neg (by simpa using hk), ih]
      simp only [lookup, hkk, if_false]
    · rw [List.filter_cons_of_pos (by simpa using hk)]
      simp only [lookup, ih]

theorem lookup_filter_self {α : Type} (n : String) (l : List (String × α)) :
    lookup n (l.filter (fun e => decide (e.1 ≠ n))) = none := by
  rw [lookup_eq_none_iff]
  simp [List.mem_filter]

theorem filter_ne_of_lookup_none {α : Type} (n : String) (l : List (String × α))
    (h : lookup n l = none) : l.filter (fun e => decide (e.1 ≠ n)) = l := by
  rw [lookup_eq_none_iff] at h
  rw [List.filter_eq_self]
  intro e he
  have : e.1 ≠ n := fun hh => h (List.mem_map.mpr ⟨e, he, hh⟩)
  simpa using this

theorem filter_eq_of_lookup_some (n : String) (p : Nat) (l : List (String × Nat))
    (hu : (l.map Prod.fst).Nodup) (h : lookup n l = some p) :
    l.filter (fun e => decide (e.1 = n)) = [(n, p)] := by
  induction l with
  | nil => simp [lookup] at h
  | cons e rest ih =>
    obtain ⟨k, w⟩ := e
    rw [List.map_cons, List.nodup_cons] at hu
    by_cases hk : k = n
    · subst hk
      simp only [lookup, if_true, Option.some.injEq] at h
      subst h
      have hnone : lookup k rest = none := (lookup_eq_none_iff k rest).mpr hu.1
      have : rest.filter (fun e => decide (e.1 = k)) = [] := by
        rw [List.filter_eq_nil_iff]
        intro e he
        have : e.1 ≠ k := fun hh => hu.1 (List.mem_map.mpr ⟨e, he, hh⟩)
        simpa using this
      simp [List.filter, this]
    · simp only [lookup, hk, if_false] at h
      simp [List.filter, hk, ih hu.2 h]

/-! ## The map of pending service calls -/

theorem PendingMap.eq_of_entries {m₁ m₂ : PendingMap} (h : m₁.entries = m₂.entries) :
    m₁ = m₂ := by
  cases m₁; cases m₂; cases h; rfl

theorem PendingMap.insert_absent (m : PendingMap) (key : String) (promise : Nat)
    (h : m.find key = none) :
    (m.insert key promise).2 = true ∧
      (m.insert key promise).1.entries = m.entries ++ [(key, promise)] := by
  have hk : key ∉ m.entries.map Prod.fst := (lookup_eq_none_iff key m.entries).mp h
  simp only [PendingMap.insert, dif_neg hk, and_self]

theorem PendingMap.insert_present (m : PendingMap) (key : String) (promise p : Nat)
    (h : m.find key = some p) : m.insert key promise = (m, false) := by
  have hk : key ∈ m.entries.map Prod.fst := by
    by_contra hc
    have := (lookup_eq_none_iff key m.entries).mpr hc
    simp [PendingMap.find, this] at h
  simp only [PendingMap.insert, dif_pos hk]

theorem PendingMap.find_erase_self (m : PendingMap) (key : String) :
    (m.erase key).find key = none :=
  lookup_filter_self key m.entries

theorem PendingMap.find_erase_ne (m : PendingMap) (key k : String) (h : k ≠ key) :
    (m.erase key).find k = m.find k :=
  lookup_filter_ne k key m.entries h

/-! ## Reading a record -/

theorem Json.touch_of_contains (res : Json) (key : String) (h : res.contains key = true) :
    res.touch key = res := by
  cases res <;> simp [Json.contains] at h
  simp [Json.touch, h]

theorem logged_of_response (res : Json) (n : String) (success : Bool)
    (he : success = false → res.contains "error_message" = true)
    (hr : n = "get_config" → res.contains "result" = true) :
    logged res n success = res := by
  unfold logged
  have h1 : (if success = true then res else res.touch "error_message") = res := by
    cases success
    · simp [Json.touch_of_contains res _ (he rfl)]
    · simp
  simp only [h1]
  by_cases hn : n = "get_config"
  · simp [hn, Json.touch_of_contains res _ (hr hn)]
  · simp [hn]

theorem released_response_log (n : String) (success : Bool) :
    released (response_log n success) = [] := by
  unfold response_log
  by_cases hn : n = "get_config" <;> simp [hn, released]

theorem released_append (xs ys : List Event) :
    released (xs ++ ys) = released xs ++ released ys := by
  induction xs with
  | nil => rfl
  | cons e rest ih => cases e <;> simp [released, ih]

theorem velocity_outputs_response_log (n : String) (success : Bool) :
    velocity_outputs (response_log n success) = [] := by
  unfold response_log
  by_cases hn : n = "get_config" <;> simp [hn, velocity_outputs]

theorem odom_outputs_response_log (n : String) (success : Bool) :
    odom_outputs (response_log n success) = [] := by
  unfold response_log
  by_cases hn : n = "get_config" <;> simp [hn, odom_outputs]

theorem velocity_outputs_append (xs ys : List Event) :
    velocity_outputs (xs ++ ys) = velocity_outputs xs ++ velocity_outputs ys := by
  induction xs with
  | nil => rfl
  | cons e rest ih => cases e <;> simp [velocity_outputs, ih]

theorem odom_outputs_append (xs ys : List Event) :
    odom_outputs (xs ++ ys) = odom_outputs xs ++ odom_outputs ys := by
  induction xs with
  | nil => rfl
  | cons e rest ih => cases e <;> simp [odom_outputs, ih]

theorem lookup_append_absent {α : Type} (k key : String) (v : α) (l : List (String × α))
    (h : lookup key l = none) :
    lookup k (l ++ [(key, v)]) = if k = key then some v else lookup k l := by
  by_cases hk : k = key
  · subst hk
    simp [lookup_append_singleton_self k v l h]
  · simp only [hk, if_false]
    induction l with
    | nil => simp [lookup, Ne.symm hk]
    | cons e rest ih =>
      obtain ⟨k', w⟩ := e
      by_cases hk' : k' = key
      · simp [lookup, hk'] at h
      · simp only [lookup, hk', if_false] at h
        by_cases hkk : k' = k
        · simp [lookup, hkk]
        · simp [lookup, hkk, ih h]

/-- Reading a member of the record gives the same value before and after
`j[key]` was evaluated on it. -/
theorem Json.touch_at_key (res : Json) (key k : String) :
    (res.touch key).at_key k = res.at_key k := by
  cases res with
  | obj members =>
    cases hl : lookup key members with
    | some v => simp [Json.touch, hl]
    | none =>
      simp only [Json.touch, hl, Option.isSome_none, Bool.false_eq_true, if_false, Json.at_key,
        lookup_append_absent k key Json.null members hl]
      by_cases hk : k = key
      · subst hk
        simp [hl]
      · simp [hk]
  | null =>
    simp only [Json.touch, Json.at_key, lookup]
    by_cases hk : key = k <;> simp [hk]
  | bool b => rfl
  | num q => rfl
  | str s => rfl
  | arr xs => rfl

theorem logged_at_key (res : Json) (n : String) (success : Bool) (k : String) :
    (logged res n success).at_key k = res.at_key k := by
  unfold logged
  by_cases hn : n = "get_config" <;> cases success <;>
    simp [hn, Json.touch_at_key]

theorem PendingMap.erase_absent (m : PendingMap) (key : String) (h : m.find key = none) :
    m.erase key = m :=
  PendingMap.eq_of_entries (filter_ne_of_lookup_none key m.entries h)

theorem not_warn_mem_response_log (n : String) (success : Bool) :
    Event.log .warn ∉ response_log n success := by
  unfold response_log
  by_cases hn : n = "get_config" <;> cases success <;> simp [hn]

/-- What `publish` does with a command response naming `n`. -/
theorem publish_command_response (st : NodeState) (res : Json) (n : String) (success : Bool)
    (h : IsCommandResponse res n success) :
    publish st res =
      match st.pending_service_calls.find n with
      | some promise =>
        ⟨{ st with pending_service_calls := st.pending_service_calls.erase n },
          response_log n success ++ [.set_value promise (logged res n success)], none⟩
      | none => ⟨st, response_log n success, none⟩ := by
  obtain ⟨hc, hn, hs⟩ := h
  simp only [publish, hc, if_true, command_response, hn, Except.bind, Json.get_string, hs]

/-! ## The velocity branch -/

theorem bind_eq_ok {α β : Type} {x : Except Thrown α} {f : α → Except Thrown β} {b : β}
    (h : x.bind f = .ok b) : ∃ a, x = .ok a ∧ f a = .ok b := by
  cases x with
  | error e => simp [Except.bind] at h
  | ok a => exact ⟨a, rfl, h⟩

theorem beam_step_altitude {res : Json} {msg out : Dvl} {beam : Nat}
    (h : beam_step res msg beam = .ok out) : out.altitude = msg.altitude := by
  obtain ⟨b, -, hb⟩ := bind_eq_ok h
  cases hb
  rfl

theorem beam_loop_eq (res : Json) (msg : Dvl) :
    beam_loop res msg =
      (beam_step res msg 0).bind fun m0 => (beam_step res m0 1).bind fun m1 =>
        (beam_step res m1 2).bind fun m2 => beam_step res m2 3 := by
  unfold beam_loop
  simp only [List.foldlM_cons, List.foldlM_nil]
  cases beam_step res msg 0 with
  | error e => rfl
  | ok m0 =>
    cases h1 : beam_step res m0 1 with
    | error e => simp [Except.bind, bind, h1]
    | ok m1 =>
      cases h2 : beam_step res m1 2 with
      | error e => simp [Except.bind, bind, h1, h2]
      | ok m2 =>
        cases h3 : beam_step res m2 3 with
        | error e => simp [Except.bind, bind, h1, h2, h3, pure, Except.pure]
        | ok m3 => simp [Except.bind, bind, h1, h2, h3, pure, Except.pure]

theorem beam_loop_altitude {res : Json} {msg out : Dvl}
    (h : beam_loop res msg = .ok out) : out.altitude = msg.altitude := by
  rw [beam_loop_eq] at h
  obtain ⟨m0, h0, h⟩ := bind_eq_ok h
  obtain ⟨m1, h1, h⟩ := bind_eq_ok h
  obtain ⟨m2, h2, h3⟩ := bind_eq_ok h
  rw [beam_step_altitude h3, beam_step_altitude h2, beam_step_altitude h1,
    beam_step_altitude h0]

theorem velocity_tail_ok {st : NodeState} {res : Json} {msg out : Dvl}
    (h : velocity_tail st res msg = .ok out) :
    out.altitude = msg.altitude ∧ ∃ v, read_bool res "velocity_valid" = .ok v := by
  unfold velocity_tail at h
  obtain ⟨v, hv, h⟩ := bind_eq_ok h
  obtain ⟨m, hm, h⟩ := bind_eq_ok h
  cases h
  have halt := beam_loop_altitude hm
  exact ⟨halt, v, hv⟩

theorem velocity_head_ok {st : NodeState} {res : Json} {msg : Dvl} {a : ℚ}
    (h : velocity_head st res = .ok (msg, a)) : read_double res "altitude" = .ok a := by
  unfold velocity_head at h
  obtain ⟨_, -, h⟩ := bind_eq_ok h
  obtain ⟨_, -, h⟩ := bind_eq_ok h
  obtain ⟨_, -, h⟩ := bind_eq_ok h
  obtain ⟨_, -, h⟩ := bind_eq_ok h
  obtain ⟨_, -, h⟩ := bind_eq_ok h
  obtain ⟨_, -, h⟩ := bind_eq_ok h
  obtain ⟨a', ha, h⟩ := bind_eq_ok h
  cases h
  exact ha

/-- The altitude that the holdover rule selects for a report on a node. -/
theorem velocity_report_done (s : NodeState) (res : Json)
    (h : (velocity_report s res).thrown = none) :
    ∃ msg, velocity_report s res =
        ⟨{ s with old_altitude :=
            if 0 ≤ (altitude_sample res).1 ∧ (altitude_sample res).2 = true
            then (altitude_sample res).1 else s.old_altitude },
          [.velocity_pub msg], none⟩ ∧
      msg.altitude =
        if 0 ≤ (altitude_sample res).1 ∧ (altitude_sample res).2 = true
        then (altitude_sample res).1 else s.old_altitude := by
  unfold velocity_report at h ⊢
  cases hh : velocity_head s res with
  | error e => simp [hh] at h
  | ok head =>
    obtain ⟨m, a⟩ := head
    have ha := velocity_head_ok hh
    simp only [hh] at h ⊢
    cases hold : altitude_holdover s.old_altitude a res with
    | error e => simp [hold] at h
    | ok pair =>
      obtain ⟨old', alt⟩ := pair
      simp only [hold] at h ⊢
      cases ht : velocity_tail s res { m with altitude := alt } with
      | error e => simp [ht] at h
      | ok out =>
        obtain ⟨halt, v, hv⟩ := velocity_tail_ok ht
        have hsample : altitude_sample res = (a, v) := by
          simp only [altitude_sample, ha, hv]
        simp only [hsample]
        unfold altitude_holdover at hold
        simp only [hv] at hold
        refine ⟨out, ?_, ?_⟩
        · by_cases h0 : 0 ≤ a
          · cases v
            · simp only [h0, if_true] at hold
              cases hold
              simp
            · simp only [h0, if_true] at hold
              cases hold
              simp [h0]
          · simp only [h0, if_false] at hold
            cases hold
            simp [h0]
        · rw [halt]
          by_cases h0 : 0 ≤ a
          · cases v
            · simp only [h0, if_true] at hold
              cases hold
              simp
            · simp only [h0, if_true] at hold
              cases hold
              simp [h0]
          · simp only [h0, if_false] at hold
            cases hold
            simp [h0]

theorem publish_velocity_report (s : NodeState) (res : Json) (h : IsVelocityReport res) :
    ∃ msg, publish s res =
        ⟨{ s with old_altitude :=
            if 0 ≤ (altitude_sample res).1 ∧ (altitude_sample res).2 = true
            then (altitude_sample res).1 else s.old_altitude },
          [.velocity_pub msg], none⟩ ∧
      msg.altitude =
        if 0 ≤ (altitude_sample res).1 ∧ (altitude_sample res).2 = true
        then (altitude_sample res).1 else s.old_altitude := by
  obtain ⟨h1, h2, h3⟩ := h
  have hp : publish s res = velocity_report s res := by
    simp [publish, h1, h2]
  rw [hp]
  exact velocity_report_done s res (hp ▸ h3 s)

theorem sample_velocity_head (st : NodeState) (a : ℚ) (v : Bool) :
    ∃ m, velocity_head st (sample_velocity a v) = .ok (m, a) := ⟨_, rfl⟩

theorem sample_velocity_tail (st : NodeState) (a : ℚ) (v : Bool) (m : Dvl) :
    ∃ out, velocity_tail st (sample_velocity a v) m = .ok out := ⟨_, rfl⟩

theorem sample_velocity_is_report (a : ℚ) (v : Bool) :
    IsVelocityReport (sample_velocity a v) := by
  refine ⟨rfl, rfl, fun st => ?_⟩
  have hp : publish st (sample_velocity a v) = velocity_report st (sample_velocity a v) := rfl
  rw [hp]
  obtain ⟨m, hm⟩ := sample_velocity_head st a v
  unfold velocity_report
  simp only [hm]
  have hv : read_bool (sample_velocity a v) "velocity_valid" = .ok v := rfl
  unfold altitude_holdover
  simp only [hv]
  by_cases h0 : 0 ≤ a
  · cases v
    · obtain ⟨out, ho⟩ := sample_velocity_tail st a false { m with altitude := st.old_altitude }
      simp only [h0, if_true, ho]
    · obtain ⟨out, ho⟩ := sample_velocity_tail st a true { m with altitude := a }
      simp only [h0, if_true, ho]
  · obtain ⟨out, ho⟩ := sample_velocity_tail st a v { m with altitude := st.old_altitude }
    simp only [h0, if_false, ho]

theorem holdover_cons (last_good : ℚ) (p : ℚ × Bool) (rest : List (ℚ × Bool)) :
    holdover last_good (p :: rest) =
      if 0 ≤ p.1 ∧ p.2 = true then (p.1 :: (holdover p.1 rest).1, (holdover p.1 rest).2)
      else (last_good :: (holdover last_good rest).1, (holdover last_good rest).2) := by
  obtain ⟨a, v⟩ := p
  simp only [holdover]

theorem holdover_last_good (samples : List (ℚ × Bool)) (last_good : ℚ) :
    (holdover last_good samples).2 = last_good ∨
      ∃ p ∈ samples, 0 ≤ p.1 ∧ p.2 = true ∧ (holdover last_good samples).2 = p.1 := by
  induction samples generalizing last_good with
  | nil => exact Or.inl rfl
  | cons p rest ih =>
    rw [holdover_cons]
    by_cases hp : 0 ≤ p.1 ∧ p.2 = true
    · simp only [hp, and_self, if_true]
      rcases ih p.1 with h | ⟨q, hq, hq1, hq2, hq3⟩
      · exact Or.inr ⟨p, List.mem_cons_self _ _, hp.1, hp.2, h⟩
      · exact Or.inr ⟨q, List.mem_cons_of_mem _ hq, hq1, hq2, hq3⟩
    · simp only [hp, if_false]
      rcases ih last_good with h | ⟨q, hq, hq1, hq2, hq3⟩
      · exact Or.inl h
      · exact Or.inr ⟨q, List.mem_cons_of_mem _ hq, hq1, hq2, hq3⟩

theorem emitted_altitudes_append (xs ys : List Event) :
    emitted_altitudes (xs ++ ys) = emitted_altitudes xs ++ emitted_altitudes ys := by
  simp only [emitted_altitudes, velocity_outputs_append, List.map_append]

theorem publish_all_velocity_reports (reports : List Json) (st : NodeState)
    (h : ∀ res ∈ reports, IsVelocityReport res) :
    emitted_altitudes (publish_all st reports).2
        = (holdover st.old_altitude (reports.map altitude_sample)).1 ∧
      (publish_all st reports).1.old_altitude
        = (holdover st.old_altitude (reports.map altitude_sample)).2 := by
  induction reports generalizing st with
  | nil => exact ⟨rfl, rfl⟩
  | cons res rest ih =>
    obtain ⟨msg, hpub, hmsg⟩ := publish_velocity_report st res (h res (List.mem_cons_self _ _))
    have hrest : ∀ r ∈ rest, IsVelocityReport r := fun r hr => h r (List.mem_cons_of_mem _ hr)
    rw [List.map_cons, holdover_cons]
    simp only [publish_all, hpub, emitted_altitudes_append]
    have hone : emitted_altitudes [Event.velocity_pub msg] = [msg.altitude] := rfl
    rw [hone, hmsg]
    by_cases hp : 0 ≤ (altitude_sample res).1 ∧ (altitude_sample res).2 = true
    · simp only [hp, and_self, if_true]
      have := ih { st with old_altitude := (altitude_sample res).1 } hrest
      exact ⟨by rw [this.1]; rfl, this.2⟩
    · simp only [hp, if_false]
      have := ih { st with old_altitude := st.old_altitude } hrest
      exact ⟨by rw [this.1]; rfl, this.2⟩

/-! ## The loop over the beams -/

theorem velocity_head_fresh {st : NodeState} {res : Json} {msg : Dvl} {a : ℚ}
    (h : velocity_head st res = .ok (msg, a)) : msg.num_good_beams = 0 := by
  unfold velocity_head at h
  obtain ⟨_, -, h⟩ := bind_eq_ok h
  obtain ⟨_, -, h⟩ := bind_eq_ok h
  obtain ⟨_, -, h⟩ := bind_eq_ok h
  obtain ⟨_, -, h⟩ := bind_eq_ok h
  obtain ⟨_, -, h⟩ := bind_eq_ok h
  obtain ⟨_, -, h⟩ := bind_eq_ok h
  obtain ⟨_, -, h⟩ := bind_eq_ok h
  cases h
  rfl

theorem beam_loop_result (res : Json) (msg : Dvl) (b0 b1 b2 b3 : Beam)
    (h0 : read_beam res 0 = .ok b0) (h1 : read_beam res 1 = .ok b1)
    (h2 : read_beam res 2 = .ok b2) (h3 : read_beam res 3 = .ok b3) :
    beam_loop res msg = .ok
      { msg with
        num_good_beams :=
          ((((msg.num_good_beams + b0.beam_valid.toNat) % 256 + b1.beam_valid.toNat) % 256
            + b2.beam_valid.toNat) % 256 + b3.beam_valid.toNat) % 256,
        range := b3.distance, beam_quality := b3.rssi, beam_velocity := b3.velocity } := by
  rw [beam_loop_eq]
  simp only [beam_step, h0, h1, h2, h3, Except.bind]

theorem velocity_report_beams (s : NodeState) (res : Json)
    (h : (velocity_report s res).thrown = none) :
    ∃ m out, m.num_good_beams = 0 ∧ beam_loop res m = .ok out ∧
      (velocity_report s res).events
        = [.velocity_pub { out with beam_unit_vec := beam_unit_vec }] := by
  unfold velocity_report at h ⊢
  cases hh : velocity_head s res with
  | error e => simp [hh] at h
  | ok head =>
    obtain ⟨m, a⟩ := head
    have hfresh := velocity_head_fresh hh
    simp only [hh] at h ⊢
    cases hold : altitude_holdover s.old_altitude a res with
    | error e => simp [hold] at h
    | ok pair =>
      obtain ⟨old', alt⟩ := pair
      simp only [hold] at h ⊢
      cases ht : velocity_tail s res { m with altitude := alt } with
      | error e => simp [ht] at h
      | ok out =>
        unfold velocity_tail at ht
        obtain ⟨v, -, ht⟩ := bind_eq_ok ht
        obtain ⟨m', hm', ht⟩ := bind_eq_ok ht
        cases ht
        refine ⟨_, m', ?_, hm', rfl⟩
        exact hfresh

theorem toNat_sum_le (a b c d : Bool) : a.toNat + b.toNat + c.toNat + d.toNat ≤ 4 := by
  cases a <;> cases b <;> cases c <;> cases d <;> decide

/-! ## The dead-reckoning stamp -/

theorem round_to_double_small (n : Nat) (h : n < 2 ^ 53) : round_to_double n = n := by
  simp only [round_to_double, h, if_true]

/-- A product `k * 10^9` with `k * 5^9` below `2^53` is a double. -/
theorem round_to_double_nanoseconds (k : Nat) (h : k < 4000000000) :
    round_to_double (k * 1000000000) = k * 1000000000 := by
  by_cases hs : k * 1000000000 < 2 ^ 53
  · exact round_to_double_small _ hs
  · have hne : k * 1000000000 ≠ 0 := by
      intro h0
      rw [h0] at hs
      exact hs (by decide)
    have hlo : 53 ≤ Nat.log2 (k * 1000000000) :=
      (Nat.le_log2 hne).mpr (Nat.le_of_not_lt hs)
    have hhi : Nat.log2 (k * 1000000000) < 62 :=
      (Nat.log2_lt hne).mpr (by norm_num; omega)
    simp only [round_to_double, hs, if_false]
    generalize hl : Nat.log2 (k * 1000000000) = l at hlo hhi
    have hcases : l = 53 ∨ l = 54 ∨ l = 55 ∨ l = 56 ∨ l = 57 ∨ l = 58 ∨ l = 59 ∨ l = 60 ∨
        l = 61 := by omega
    rcases hcases with rfl | rfl | rfl | rfl | rfl | rfl | rfl | rfl | rfl <;>
      · simp only [Nat.shiftRight_eq_div_pow, Nat.shiftLeft_eq]
        norm_num
        split_ifs <;> omega

theorem double_to_uint64_floor (ts : ℚ) (h0 : 0 ≤ ts) (h4 : ts < 4000000000) :
    double_to_uint64 ts = .ok (Rat.floor ts).toNat ∧ (Rat.floor ts).toNat < 4000000000 := by
  have hlt : ts < 2 ^ 64 := lt_trans h4 (by norm_num)
  have hneg : (-1 : ℚ) < ts := lt_of_lt_of_le (by norm_num) h0
  refine ⟨by simp [double_to_uint64, hneg, hlt, h0], ?_⟩
  have hfl : Rat.floor ts = ⌊ts⌋ := rfl
  have h1 : ⌊ts⌋ < (4000000000 : ℤ) := by
    rw [Int.floor_lt]
    exact_mod_cast h4
  have h2 : (0 : ℤ) ≤ ⌊ts⌋ := Int.floor_nonneg.mpr h0
  rw [hfl]
  omega

theorem dead_reckoning_stamp_eq (ts : ℚ) (h0 : 0 ≤ ts) (h4 : ts < 4000000000) :
    dead_reckoning_stamp ts = .ok ((Rat.floor ts).toNat * 1000000000) := by
  obtain ⟨hc, hb⟩ := double_to_uint64_floor ts h0 h4
  unfold dead_reckoning_stamp
  simp only [hc]
  rw [round_to_double_small _ (lt_trans hb (by norm_num)), round_to_double_nanoseconds _ hb]
  have : (Rat.floor ts).toNat * 1000000000 < 2 ^ 63 := by norm_num; omega
  simp only [this, if_true]

/-! ## The beam vectors -/

theorem sqrt_two_bounds :
    (1.41421356237309504 : ℝ) ≤ √2 ∧ √2 ≤ (1.41421356237309505 : ℝ) := by
  constructor
  · rw [Real.le_sqrt' (by norm_num)]
    norm_num
  · rw [Real.sqrt_le_left (by norm_num)]
    norm_num

theorem sin_pi_div_eight_bounds :
    (0.38268343236508977 : ℝ) ≤ Real.sin (Real.pi / 8) ∧
      Real.sin (Real.pi / 8) ≤ (0.38268343236508978 : ℝ) := by
  obtain ⟨hlo, hhi⟩ := sqrt_two_bounds
  rw [Real.sin_pi_div_eight]
  constructor
  · rw [le_div_iff₀ (by norm_num), Real.le_sqrt' (by norm_num)]
    norm_num
    linarith
  · rw [div_le_iff₀ (by norm_num), Real.sqrt_le_left (by norm_num)]
    norm_num
    linarith

theorem cos_pi_div_eight_bounds :
    (0.92387953251128675 : ℝ) ≤ Real.cos (Real.pi / 8) ∧
      Real.cos (Real.pi / 8) ≤ (0.92387953251128676 : ℝ) := by
  obtain ⟨hlo, hhi⟩ := sqrt_two_bounds
  rw [Real.cos_pi_div_eight]
  constructor
  · rw [le_div_iff₀ (by norm_num), Real.le_sqrt' (by norm_num)]
    norm_num
    linarith
  · rw [div_le_iff₀ (by norm_num), Real.sqrt_le_left (by norm_num)]
    norm_num
    linarith

/-! ## What each branch of `publish` leaves -/

theorem get_string_error (v : Json) (e : Thrown) (h : v.get_string = .error e) :
    e = .type_error := by
  cases v <;> simp [Json.get_string] at h <;> exact h.symm

theorem get_bool_error (v : Json) (e : Thrown) (h : v.get_bool = .error e) :
    e = .type_error := by
  cases v <;> simp [Json.get_bool] at h <;> exact h.symm

theorem get_string_ok (v : Json) (s : String) (h : v.get_string = .ok s) : v = .str s := by
  cases v <;> simp [Json.get_string] at h
  rw [h]

/-- A record with a member `response_to` that is not a command response (the
name is not a string, or `success` is not a boolean) makes the branch throw a
type error before anything is done. -/
theorem command_response_throws (st : NodeState) (res : Json)
    (hc : res.contains "response_to" = true)
    (h : ∀ n success, ¬ IsCommandResponse res n success) :
    command_response st res = ⟨st, [], some .type_error⟩ := by
  cases res with
  | obj members =>
    unfold command_response
    simp only [Json.at_key, Except.bind]
    cases hs : ((lookup "response_to" members).getD Json.null).get_string with
    | error e =>
      simp only [get_string_error _ e hs]
    | ok trigger =>
      simp only
      cases hb : read_bool (Json.obj members) "success" with
      | error e =>
        have he : e = .type_error := by
          simp only [read_bool, Json.at_key, Except.bind] at hb
          exact get_bool_error _ e hb
        simp only [he]
      | ok success =>
        exact absurd ⟨hc, by simp only [Json.at_key, get_string_ok _ _ hs], hb⟩
          (h trigger success)
  | null => simp [Json.contains] at hc
  | bool b => simp [Json.contains] at hc
  | num q => simp [Json.contains] at hc
  | str s => simp [Json.contains] at hc
  | arr xs => simp [Json.contains] at hc

theorem command_response_cases (res : Json) :
    (∃ n success, IsCommandResponse res n success) ∨
      ∀ n success, ¬ IsCommandResponse res n success := by
  by_cases h : ∃ n success, IsCommandResponse res n success
  · exact Or.inl h
  · exact Or.inr fun n success hn => h ⟨n, success, hn⟩

theorem beam_step_header {res : Json} {msg out : Dvl} {beam : Nat}
    (h : beam_step res msg beam = .ok out) :
    out.frame_id = msg.frame_id ∧ out.velocity = msg.velocity := by
  obtain ⟨b, -, hb⟩ := bind_eq_ok h
  cases hb
  exact ⟨rfl, rfl⟩

theorem beam_loop_header {res : Json} {msg out : Dvl}
    (h : beam_loop res msg = .ok out) :
    out.frame_id = msg.frame_id ∧ out.velocity = msg.velocity := by
  rw [beam_loop_eq] at h
  obtain ⟨m0, h0, h⟩ := bind_eq_ok h
  obtain ⟨m1, h1, h⟩ := bind_eq_ok h
  obtain ⟨m2, h2, h3⟩ := bind_eq_ok h
  have e0 := beam_step_header h0
  have e1 := beam_step_header h1
  have e2 := beam_step_header h2
  have e3 := beam_step_header h3
  exact ⟨by rw [e3.1, e2.1, e1.1, e0.1], by rw [e3.2, e2.2, e1.2, e0.2]⟩

theorem velocity_head_header {st : NodeState} {res : Json} {msg : Dvl} {a : ℚ}
    (h : velocity_head st res = .ok (msg, a)) :
    msg.frame_id = st.frame ∧ read_double res "vx" = .ok msg.velocity.x ∧
      read_double res "vy" = .ok msg.velocity.y ∧
      read_double res "vz" = .ok msg.velocity.z := by
  unfold velocity_head at h
  obtain ⟨_, -, h⟩ := bind_eq_ok h
  obtain ⟨_, -, h⟩ := bind_eq_ok h
  obtain ⟨vx, hx, h⟩ := bind_eq_ok h
  obtain ⟨vy, hy, h⟩ := bind_eq_ok h
  obtain ⟨vz, hz, h⟩ := bind_eq_ok h
  obtain ⟨_, -, h⟩ := bind_eq_ok h
  obtain ⟨_, -, h⟩ := bind_eq_ok h
  cases h
  exact ⟨rfl, hx, hy, hz⟩

theorem velocity_tail_header {st : NodeState} {res : Json} {msg out : Dvl}
    (h : velocity_tail st res msg = .ok out) :
    out.frame_id = msg.frame_id ∧ out.velocity = msg.velocity ∧
      out.beam_unit_vec = beam_unit_vec := by
  unfold velocity_tail at h
  obtain ⟨v, -, h⟩ := bind_eq_ok h
  obtain ⟨m, hm, h⟩ := bind_eq_ok h
  cases h
  have hh := beam_loop_header hm
  exact ⟨hh.1, hh.2, rfl⟩

/-- The velocity branch either throws, having published nothing, or publishes
one velocity message made from the record. -/
theorem velocity_report_cases (st : NodeState) (res : Json) :
    (∃ e, (velocity_report st res).thrown = some e ∧ (velocity_report st res).events = []) ∨
    ((velocity_report st res).thrown = none ∧
      ∃ msg, (velocity_report st res).events = [.velocity_pub msg] ∧
        msg.frame_id = st.frame ∧ read_double res "vx" = .ok msg.velocity.x ∧
        read_double res "vy" = .ok msg.velocity.y ∧
        read_double res "vz" = .ok msg.velocity.z ∧
        msg.beam_unit_vec = beam_unit_vec) := by
  unfold velocity_report
  cases hh : velocity_head st res with
  | error e =>
    simp only [hh]
    exact Or.inl ⟨e, rfl, trivial⟩
  | ok head =>
    obtain ⟨m, a⟩ := head
    obtain ⟨hf, hx, hy, hz⟩ := velocity_head_header hh
    simp only [hh]
    cases hold : altitude_holdover st.old_altitude a res with
    | error e =>
      simp only [hold]
      exact Or.inl ⟨e, rfl, trivial⟩
    | ok pair =>
      obtain ⟨old', alt⟩ := pair
      simp only [hold]
      cases ht : velocity_tail st res { m with altitude := alt } with
      | error e =>
        simp only [ht]
        exact Or.inl ⟨e, rfl, trivial⟩
      | ok out =>
        simp only [ht]
        obtain ⟨h1, h2, h3⟩ := velocity_tail_header ht
        refine Or.inr ⟨trivial, out, rfl, ?_, ?_, ?_, ?_, h3⟩
        · rw [h1]; exact hf
        · rw [h2]; exact hx
        · rw [h2]; exact hy
        · rw [h2]; exact hz

theorem velocity_report_frame (st : NodeState) (res : Json) :
    released (velocity_report st res).events = [] ∧
      odom_outputs (velocity_report st res).events = [] ∧
      (velocity_report st res).state.pending_service_calls = st.pending_service_calls := by
  unfold velocity_report
  split
  · exact ⟨rfl, rfl, rfl⟩
  · split
    · exact ⟨rfl, rfl, rfl⟩
    · split
      · exact ⟨rfl, rfl, rfl⟩
      · exact ⟨rfl, rfl, rfl⟩

/-- The dead-reckoning branch either throws, having published nothing, or
publishes one odometry message made from the record. -/
theorem dead_reckoning_report_cases (st : NodeState) (res : Json) :
    (dead_reckoning_report st res).state = st ∧
    ((∃ e, (dead_reckoning_report st res).thrown = some e ∧
        (dead_reckoning_report st res).events = []) ∨
     ((dead_reckoning_report st res).thrown = none ∧
       ∃ msg, (dead_reckoning_report st res).events = [.odom_pub msg] ∧
         msg.frame_id = st.frame ∧ read_double res "x" = .ok msg.position.x ∧
         read_double res "y" = .ok msg.position.y ∧
         read_double res "z" = .ok msg.position.z)) := by
  unfold dead_reckoning_report
  cases hm : dead_reckoning_msg st res with
  | error e =>
    simp only [hm]
    exact ⟨trivial, Or.inl ⟨e, rfl, trivial⟩⟩
  | ok msg =>
    simp only [hm]
    refine ⟨trivial, Or.inr ⟨trivial, msg, rfl, ?_⟩⟩
    unfold dead_reckoning_msg at hm
    obtain ⟨_, -, hm⟩ := bind_eq_ok hm
    obtain ⟨x, hx, hm⟩ := bind_eq_ok hm
    obtain ⟨y, hy, hm⟩ := bind_eq_ok hm
    obtain ⟨z, hz, hm⟩ := bind_eq_ok hm
    obtain ⟨_, -, hm⟩ := bind_eq_ok hm
    obtain ⟨_, -, hm⟩ := bind_eq_ok hm
    obtain ⟨_, -, hm⟩ := bind_eq_ok hm
    obtain ⟨_, -, hm⟩ := bind_eq_ok hm
    cases hm
    exact ⟨rfl, hx, hy, hz⟩

/-! ## The serial checksum: table and error detection -/

/-- C1: `lookup_table` has 256 entries, and for every byte value `i` the entry
`lookup_table[i]` is the CRC-8 of the single byte `i` computed bit by bit:
eight shift-and-conditionally-xor steps, most significant bit first,
polynomial `0x07`, initial value 0, nothing reflected, no final xor. -/
theorem lookup_table_is_crc8_poly_07 :
    lookup_table.length = 256 ∧
    ∀ i : Fin 256, lookup_table.getD i.val 0 = crc8_bitwise i.val := by
  constructor
  · decide!
  · decide!

/-- C2: for every byte buffer `m`, the frame `m ++ [crc8 m]` validates, and the
frame with any single bit inverted, in a payload byte or in the checksum
byte, does not. -/
theorem crc8_detects_single_bit_flips (m : List Nat) (hm : IsBytes m) :
    validate_frame (m ++ [crc8 m]) = true ∧
    ∀ i k : Nat, i < (m ++ [crc8 m]).length → k < 8 →
      validate_frame (flip_bit (m ++ [crc8 m]) i k) = false := by
  refine ⟨by rw [validate_frame_append]; exact decide_eq_true rfl, fun i k hi hk => ?_⟩
  rw [List.length_append, List.length_singleton] at hi
  by_cases hlt : i < m.length
  · have hflip : flip_bit (m ++ [crc8 m]) i k
        = m.set i (m.getD i 0 ^^^ (1 <<< k)) ++ [crc8 m] := by
      unfold flip_bit
      rw [List.set_append_left _ _ hlt, List.getD_append _ _ _ _ hlt]
    rw [hflip, validate_frame_append]
    exact decide_eq_false (crc8_set_ne m hm i k hlt hk)
  · have hi' : i = m.length := by omega
    subst hi'
    have hflip : flip_bit (m ++ [crc8 m]) m.length k = m ++ [crc8 m ^^^ (1 <<< k)] := by
      unfold flip_bit
      rw [List.set_append_right _ _ (Nat.le_refl _),
        List.getD_append_right _ _ _ _ (Nat.le_refl _)]
      simp
    rw [hflip, validate_frame_append]
    exact decide_eq_false (fun h => xor_bit_ne (crc8 m) k h.symm)

/-- C2 at a concrete input: the three payload bytes of `wrz`. -/
theorem crc8_detects_single_bit_flips_witness :
    IsBytes [0x77, 0x72, 0x7A] ∧
    validate_frame ([0x77, 0x72, 0x7A] ++ [crc8 [0x77, 0x72, 0x7A]]) = true ∧
    ∀ i k : Nat, i < ([0x77, 0x72, 0x7A] ++ [crc8 [0x77, 0x72, 0x7A]]).length → k < 8 →
      validate_frame (flip_bit ([0x77, 0x72, 0x7A] ++ [crc8 [0x77, 0x72, 0x7A]]) i k)
        = false :=
  have hm : IsBytes [0x77, 0x72, 0x7A] := by
    simp [IsBytes]
  ⟨hm, crc8_detects_single_bit_flips [0x77, 0x72, 0x7A] hm⟩

/-! ## Classification of records and altitude holdover -/

/-- C3: `publish` handles every record as exactly one of four kinds, chosen by
the presence of members in this order.
With `response_to` present, whatever else is present, the record is a command
response: when its name is a string and `success` a boolean, the result is
logged (info or error, and the configuration for `get_config`), the promise
pending under the name is set with the record and its entry erased, and
nothing is thrown; otherwise a type error is thrown before anything is done.
Either way no velocity and no odometry message is published, `old_altitude`
stays as it is and no warning is logged.
Else, with `altitude` present, the record is a velocity report: one velocity
message made from the record is published, unless a conversion throws, in
which case nothing is published; no promise is set, no odometry message is
published, the pending map stays as it is and no warning is logged.
Else, with `pitch` present, the record is a dead-reckoning report: one
odometry message made from the record is published, unless a conversion
throws, in which case nothing is published; no velocity message is published,
no promise is set, the node stays as it is and no warning is logged.
Else the record is not recognised: one warning is logged, nothing is
published, nothing is thrown and the node stays as it is. -/
theorem publish_dispatches_by_presence (st : NodeState) (res : Json) :
    (res.contains "response_to" = true →
      velocity_outputs (publish st res).events = [] ∧
      odom_outputs (publish st res).events = [] ∧
      Event.log .warn ∉ (publish st res).events ∧
      (publish st res).state.old_altitude = st.old_altitude ∧
      (∀ n success, IsCommandResponse res n success →
        (publish st res).thrown = none ∧
        (publish st res).events =
          [.log (if success = true then .info else .error)] ++
          (if n = "get_config" then [.log .info] else []) ++
          (match st.pending_service_calls.find n with
            | some promise => [.set_value promise (logged res n success)]
            | none => []) ∧
        (publish st res).state =
          { st with pending_service_calls := st.pending_service_calls.erase n }) ∧
      ((∀ n success, ¬ IsCommandResponse res n success) →
        publish st res = ⟨st, [], some .type_error⟩)) ∧
    (res.contains "response_to" = false → res.contains "altitude" = true →
      released (publish st res).events = [] ∧
      odom_outputs (publish st res).events = [] ∧
      Event.log .warn ∉ (publish st res).events ∧
      (publish st res).state.pending_service_calls = st.pending_service_calls ∧
      ((∃ e, (publish st res).thrown = some e ∧ (publish st res).events = []) ∨
       ((publish st res).thrown = none ∧
         ∃ msg, (publish st res).events = [.velocity_pub msg] ∧
           msg.frame_id = st.frame ∧ read_double res "vx" = .ok msg.velocity.x ∧
           read_double res "vy" = .ok msg.velocity.y ∧
           read_double res "vz" = .ok msg.velocity.z ∧
           msg.beam_unit_vec = beam_unit_vec))) ∧
    (res.contains "response_to" = false → res.contains "altitude" = false →
      res.contains "pitch" = true →
      velocity_outputs (publish st res).events = [] ∧
      released (publish st res).events = [] ∧
      Event.log .warn ∉ (publish st res).events ∧
      (publish st res).state = st ∧
      ((∃ e, (publish st res).thrown = some e ∧ (publish st res).events = []) ∨
       ((publish st res).thrown = none ∧
         ∃ msg, (publish st res).events = [.odom_pub msg] ∧
           msg.frame_id = st.frame ∧ read_double res "x" = .ok msg.position.x ∧
           read_double res "y" = .ok msg.position.y ∧
           read_double res "z" = .ok msg.position.z))) ∧
    (res.contains "response_to" = false → res.contains "altitude" = false →
      res.contains "pitch" = false →
      publish st res = ⟨st, [.log .warn], none⟩) := by
  refine ⟨fun h1 => ?_, fun h1 h2 => ?_, fun h1 h2 h3 => ?_, fun h1 h2 h3 => ?_⟩
  · have hp : publish st res = command_response st res := by simp [publish, h1]
    have hthrow : (∀ n success, ¬ IsCommandResponse res n success) →
        publish st res = ⟨st, [], some .type_error⟩ :=
      fun h => hp.trans (command_response_throws st res h1 h)
    have hok : ∀ n success, IsCommandResponse res n success →
        (publish st res).thrown = none ∧
        (publish st res).events =
          [.log (if success = true then .info else .error)] ++
          (if n = "get_config" then [.log .info] else []) ++
          (match st.pending_service_calls.find n with
            | some promise => [.set_value promise (logged res n success)]
            | none => []) ∧
        (publish st res).state =
          { st with pending_service_calls := st.pending_service_calls.erase n } := by
      intro n success hr
      have h := publish_command_response st res n success hr
      cases hf : st.pending_service_calls.find n with
      | none =>
        rw [hf] at h
        rw [h, PendingMap.erase_absent _ n hf]
        exact ⟨rfl, by simp [response_log], rfl⟩
      | some promise =>
        rw [hf] at h
        rw [h]
        exact ⟨rfl, by simp [response_log], rfl⟩
    rcases command_response_cases res with ⟨n, success, hr⟩ | hno
    · obtain ⟨-, hev, hst⟩ := hok n success hr
      have hlog : (publish st res).events = response_log n success ++
          (match st.pending_service_calls.find n with
            | some promise => [.set_value promise (logged res n success)]
            | none => []) := by
        rw [hev]; rfl
      refine ⟨?_, ?_, ?_, by rw [hst], hok, hthrow⟩
      · rw [hlog, velocity_outputs_append, velocity_outputs_response_log]
        cases st.pending_service_calls.find n <;> rfl
      · rw [hlog, odom_outputs_append, odom_outputs_response_log]
        cases st.pending_service_calls.find n <;> rfl
      · rw [hlog, List.mem_append]
        rintro (hw | hw)
        · exact not_warn_mem_response_log n success hw
        · cases hf : st.pending_service_calls.find n with
          | none => rw [hf] at hw; simp at hw
          | some promise => rw [hf] at hw; simp at hw
    · rw [hthrow hno]
      exact ⟨rfl, rfl, by simp, rfl, fun n success hr => absurd hr (hno n success),
        fun _ => rfl⟩
  · have hp : publish st res = velocity_report st res := by simp [publish, h1, h2]
    rw [hp]
    obtain ⟨hr, ho, hpend⟩ := velocity_report_frame st res
    refine ⟨hr, ho, ?_, hpend, velocity_report_cases st res⟩
    rcases velocity_report_cases st res with ⟨e, -, hev⟩ | ⟨-, msg, hev, -⟩
    · rw [hev]; simp
    · rw [hev]; simp
  · have hp : publish st res = dead_reckoning_report st res := by
      simp [publish, h1, h2, h3]
    rw [hp]
    obtain ⟨hst, hcases⟩ := dead_reckoning_report_cases st res
    refine ⟨?_, ?_, ?_, hst, hcases⟩
    · rcases hcases with ⟨e, -, hev⟩ | ⟨-, msg, hev, -⟩ <;> rw [hev] <;> rfl
    · rcases hcases with ⟨e, -, hev⟩ | ⟨-, msg, hev, -⟩ <;> rw [hev] <;> rfl
    · rcases hcases with ⟨e, -, hev⟩ | ⟨-, msg, hev, -⟩ <;> rw [hev] <;> simp
  · simp [publish, h1, h2, h3]

/-- C3 at concrete inputs: a record with `response_to` and `altitude` releases
the pending `get_config` call and publishes no velocity message; a velocity
report, a dead-reckoning report and a record with none of the three members
each take their own branch. -/
theorem publish_dispatches_by_presence_witness :
    (publish (srv_send_command sample_node "get_config" 1).1 ambiguous_record).events
      = [.log .info, .log .info,
          .set_value 1 (logged ambiguous_record "get_config" true)] ∧
    velocity_outputs
      (publish (srv_send_command sample_node "get_config" 1).1 ambiguous_record).events
      = [] ∧
    (publish (srv_send_command sample_node "get_config" 1).1
      ambiguous_record).state.old_altitude = -7 ∧
    (∃ msg, (publish sample_node (sample_velocity 5 true)).events = [.velocity_pub msg]) ∧
    (∃ msg, (publish sample_node (sample_position 1)).events = [.odom_pub msg]) ∧
    publish sample_node (.obj [("type", .str "unknown")])
      = ⟨sample_node, [.log .warn], none⟩ := by
  have ha := (publish_dispatches_by_presence (srv_send_command sample_node "get_config" 1).1
    ambiguous_record).1 rfl
  have hv := (publish_dispatches_by_presence sample_node (sample_velocity 5 true)).2.1
    rfl rfl
  have hd := (publish_dispatches_by_presence sample_node (sample_position 1)).2.2.1
    rfl rfl rfl
  have hu := (publish_dispatches_by_presence sample_node
    (.obj [("type", .str "unknown")])).2.2.2 rfl rfl rfl
  refine ⟨(ha.2.2.2.2.1 "get_config" true ⟨rfl, rfl, rfl⟩).2.1, ha.1, ha.2.2.2.1, ?_, ?_, hu⟩
  · rcases hv.2.2.2.2 with ⟨e, he, -⟩ | ⟨-, msg, hev, -⟩
    · rw [(sample_velocity_is_report 5 true).2.2 sample_node] at he
      exact absurd he (by simp)
    · exact ⟨msg, hev⟩
  · rcases hd.2.2.2.2 with ⟨e, he, -⟩ | ⟨-, msg, hev, -⟩
    · have hn : (publish sample_node (sample_position 1)).thrown = none := rfl
      rw [hn] at he
      exact absurd he (by simp)
    · exact ⟨msg, hev⟩

/-- C4: for velocity reports handled in order, each report emits its own
altitude when that altitude is not negative and `velocity_valid` is true, and
`old_altitude` takes that value; otherwise it emits `old_altitude`, which stays
as it is.  The emitted altitudes and the final `old_altitude` are those of the
holdover rule of the specification, and the final `old_altitude` is its value
before the reports or the altitude of a report with a non-negative altitude
and a true `velocity_valid`. -/
theorem altitude_holdover_over_reports (st : NodeState) (reports : List Json)
    (h : ∀ res ∈ reports, IsVelocityReport res) :
    (∀ res ∈ reports, ∀ s : NodeState, ∃ msg,
      (publish s res).events = [.velocity_pub msg] ∧
      (0 ≤ (altitude_sample res).1 ∧ (altitude_sample res).2 = true →
        msg.altitude = (altitude_sample res).1 ∧
        (publish s res).state.old_altitude = (altitude_sample res).1) ∧
      (¬ (0 ≤ (altitude_sample res).1 ∧ (altitude_sample res).2 = true) →
        msg.altitude = s.old_altitude ∧
        (publish s res).state.old_altitude = s.old_altitude)) ∧
    emitted_altitudes (publish_all st reports).2
      = (holdover st.old_altitude (reports.map altitude_sample)).1 ∧
    (publish_all st reports).1.old_altitude
      = (holdover st.old_altitude (reports.map altitude_sample)).2 ∧
    ((publish_all st reports).1.old_altitude = st.old_altitude ∨
      ∃ res ∈ reports, 0 ≤ (altitude_sample res).1 ∧ (altitude_sample res).2 = true ∧
        (publish_all st reports).1.old_altitude = (altitude_sample res).1) := by
  obtain ⟨hem, hfin⟩ := publish_all_velocity_reports reports st h
  refine ⟨fun res hres s => ?_, hem, hfin, ?_⟩
  · obtain ⟨msg, hpub, hmsg⟩ := publish_velocity_report s res (h res hres)
    refine ⟨msg, by rw [hpub], fun hp => ?_, fun hp => ?_⟩
    · rw [hmsg, hpub]; simp [hp]
    · rw [hmsg, hpub]; simp [hp]
  · rw [hfin]
    rcases holdover_last_good (reports.map altitude_sample) st.old_altitude with
      h1 | ⟨p, hp, hp1, hp2, hp3⟩
    · exact Or.inl h1
    · obtain ⟨res, hres, rfl⟩ := List.mem_map.mp hp
      exact Or.inr ⟨res, hres, hp1, hp2, hp3⟩

/-- C4 at the input of the specification: the reports (5.0, valid),
(-1.0, valid), (6.0, not valid) emit the altitudes 5.0, 5.0, 5.0, on a node
whose `old_altitude` was -7. -/
theorem altitude_holdover_over_reports_witness :
    (∀ res ∈ sample_reports, IsVelocityReport res) ∧
    emitted_altitudes (publish_all sample_node sample_reports).2 = [5, 5, 5] ∧
    (publish_all sample_node sample_reports).1.old_altitude = 5 := by
  have hrep : ∀ res ∈ sample_reports, IsVelocityReport res := by
    intro res hres
    simp only [sample_reports, List.mem_cons, List.mem_singleton, List.not_mem_nil,
      or_false] at hres
    rcases hres with rfl | rfl | rfl <;> exact sample_velocity_is_report _ _
  have h := altitude_holdover_over_reports sample_node sample_reports hrep
  have hs : sample_reports.map altitude_sample = [(5, true), (-1, true), (6, false)] := rfl
  refine ⟨hrep, ?_, ?_⟩
  · rw [h.2.1, hs]
    norm_num [holdover]
  · rw [h.2.2.1, hs]
    norm_num [holdover]

/-! ## Correlation of commands and responses -/

/-- C5 as stated fails: for the command response of the specification's
example, `get_config` with `success` true and no `result`, the promise of the
pending `get_config` call does not receive exactly that response; it receives
the record with a member `result` holding null added, left by the log line
that read `res["result"]`. -/
theorem response_is_delivered_with_null_members :
    IsCommandResponse bare_response "get_config" true ∧
    released (publish (srv_send_command sample_node "get_config" 1).1 bare_response).events
      = [(1, .obj [("response_to", .str "get_config"), ("success", .bool true),
          ("result", .null)])] ∧
    released (publish (srv_send_command sample_node "get_config" 1).1 bare_response).events
      ≠ [(1, bare_response)] := by
  refine ⟨⟨rfl, rfl, rfl⟩, rfl, ?_⟩
  intro h
  have h2 : released (publish (srv_send_command sample_node "get_config" 1).1
      bare_response).events
      = [(1, .obj [("response_to", .str "get_config"), ("success", .bool true),
          ("result", .null)])] := rfl
  rw [h2] at h
  simp [bare_response] at h

/-- C5, amended: for a command name `n` without a pending entry, `send(n)`
registers the caller's promise under `n`; the next command response naming
`n` sets exactly that promise and removes the entry (the node is again as
before the send).  The value given to the promise is the response as the log
lines left it: a member that they read and that was missing, `error_message`
of a failed command and `result` of `get_config`, has been added holding
null; every member reads as in the response, and the value is exactly the
response when these members are there.  A further response naming `n` finds
no entry, sets no promise and leaves the node unchanged. -/
theorem response_releases_pending_call (st : NodeState) (n : String) (promise : Nat)
    (res again : Json) (success success_again : Bool)
    (hfree : st.pending_service_calls.find n = none)
    (hres : IsCommandResponse res n success)
    (hagain : IsCommandResponse again n success_again) :
    (srv_send_command st n promise).2.2 = .waits ∧
    (srv_send_command st n promise).1.pending_service_calls.find n = some promise ∧
    released (publish (srv_send_command st n promise).1 res).events
      = [(promise, logged res n success)] ∧
    (∀ k, (logged res n success).at_key k = res.at_key k) ∧
    ((success = false → res.contains "error_message" = true) →
      (n = "get_config" → res.contains "result" = true) →
      logged res n success = res) ∧
    (publish (srv_send_command st n promise).1 res).thrown = none ∧
    (publish (srv_send_command st n promise).1 res).state.pending_service_calls.find n
      = none ∧
    (publish (srv_send_command st n promise).1 res).state = st ∧
    released
      (publish (publish (srv_send_command st n promise).1 res).state again).events = [] ∧
    (publish (publish (srv_send_command st n promise).1 res).state again).state
      = (publish (srv_send_command st n promise).1 res).state ∧
    (publish (publish (srv_send_command st n promise).1 res).state again).thrown = none := by
  obtain ⟨hadded, hentries⟩ := PendingMap.insert_absent st.pending_service_calls n promise hfree
  have hfind : (srv_send_command st n promise).1.pending_service_calls.find n = some promise := by
    simp only [srv_send_command, PendingMap.find, hentries]
    exact lookup_append_singleton_self n promise _ hfree
  have h1 := publish_command_response (srv_send_command st n promise).1 res n success hres
  rw [hfind] at h1
  have hstate : (publish (srv_send_command st n promise).1 res).state = st := by
    rw [h1]
    obtain ⟨frame, sos, alt, pending⟩ := st
    simp only [srv_send_command, NodeState.mk.injEq, true_and]
    apply PendingMap.eq_of_entries
    simp only [PendingMap.erase]
    simp only at hentries hfree
    rw [hentries, List.filter_append, filter_ne_of_lookup_none n _ hfree]
    simp
  have h2 := publish_command_response st again n success_again hagain
  rw [hfree] at h2
  refine ⟨by simp [srv_send_command, hadded], hfind, ?_, logged_at_key res n success,
    logged_of_response res n success, ?_, ?_, hstate, ?_, ?_, ?_⟩
  · rw [h1]; simp only [released_append, released_response_log, List.nil_append]; rfl
  · rw [h1]
  · rw [hstate]; exact hfree
  · rw [hstate, h2]; exact released_response_log n success_again
  · rw [hstate, h2]
  · rw [hstate, h2]

/-- C5, amended, at a concrete input: `get_config` sent on a node with nothing
pending, answered by a response that carries all its members. -/
theorem response_releases_pending_call_witness :
    sample_node.pending_service_calls.find "get_config" = none ∧
    IsCommandResponse (sample_response "get_config" true) "get_config" true ∧
    released (publish (srv_send_command sample_node "get_config" 1).1
      (sample_response "get_config" true)).events
      = [(1, sample_response "get_config" true)] ∧
    released (publish (publish (srv_send_command sample_node "get_config" 1).1
      (sample_response "get_config" true)).state
      (sample_response "get_config" true)).events = [] :=
  have hfree : sample_node.pending_service_calls.find "get_config" = none := rfl
  have hres : IsCommandResponse (sample_response "get_config" true) "get_config" true :=
    ⟨rfl, rfl, rfl⟩
  have h := response_releases_pending_call sample_node "get_config" 1 _ _ true true
    hfree hres hres
  ⟨hfree, hres, h.2.2.1, h.2.2.2.2.2.2.2.2.1⟩

/-- C6: with two distinct command names `a` and `b` both pending, the response
for `b` sets the promise registered under `b` and the response for `a`, which
arrives after it, sets the promise registered under `a`, each with its own
response: the value given to a promise is the response named for it as the
log lines left it, which reads as that response at every member and names the
same command.  In general a response naming `n` sets no promise but the one
registered under `n`, with the response naming `n`, and leaves the entry of
every other name as it was. -/
theorem responses_not_cross_wired (st : NodeState) (a b : String) (pa pb : Nat)
    (res_a res_b : Json) (sa sb : Bool) (hab : a ≠ b)
    (ha : st.pending_service_calls.find a = some pa)
    (hb : st.pending_service_calls.find b = some pb)
    (hra : IsCommandResponse res_a a sa) (hrb : IsCommandResponse res_b b sb) :
    released (publish st res_b).events = [(pb, logged res_b b sb)] ∧
    released (publish (publish st res_b).state res_a).events = [(pa, logged res_a a sa)] ∧
    (logged res_a a sa).at_key "response_to" = .ok (.str a) ∧
    (logged res_b b sb).at_key "response_to" = .ok (.str b) ∧
    (∀ (s : NodeState) (n : String) (success : Bool) (res : Json),
      IsCommandResponse res n success →
      (∀ p v, (p, v) ∈ released (publish s res).events →
        s.pending_service_calls.find n = some p ∧ v = logged res n success) ∧
      (∀ k, (logged res n success).at_key k = res.at_key k) ∧
      ((success = false → res.contains "error_message" = true) →
        (n = "get_config" → res.contains "result" = true) →
        logged res n success = res) ∧
      (∀ k, k ≠ n →
        (publish s res).state.pending_service_calls.find k
          = s.pending_service_calls.find k)) := by
  have general : ∀ (s : NodeState) (n : String) (success : Bool) (res : Json),
      IsCommandResponse res n success →
      (∀ p v, (p, v) ∈ released (publish s res).events →
        s.pending_service_calls.find n = some p ∧ v = logged res n success) ∧
      (∀ k, (logged res n success).at_key k = res.at_key k) ∧
      ((success = false → res.contains "error_message" = true) →
        (n = "get_config" → res.contains "result" = true) →
        logged res n success = res) ∧
      (∀ k, k ≠ n →
        (publish s res).state.pending_service_calls.find k
          = s.pending_service_calls.find k) := by
    intro s n success res hr
    have h := publish_command_response s res n success hr
    refine ⟨?_, logged_at_key res n success, logged_of_response res n success, ?_⟩
    · cases hf : s.pending_service_calls.find n with
      | none =>
        rw [hf] at h
        rw [h]
        simp [released_response_log]
      | some q =>
        rw [hf] at h
        rw [h]
        simp only [released_append, released_response_log, List.nil_append]
        intro p v hpv
        have hq : (p, v) = (q, logged res n success) := List.mem_singleton.mp hpv
        rw [Prod.mk.injEq] at hq
        exact ⟨by rw [hq.1], hq.2⟩
    · intro k hk
      cases hf : s.pending_service_calls.find n with
      | none =>
        rw [hf] at h
        rw [h]
      | some q =>
        rw [hf] at h
        rw [h]
        exact PendingMap.find_erase_ne _ n k hk
  have h1 := publish_command_response st res_b b sb hrb
  rw [hb] at h1
  have h2 := publish_command_response (publish st res_b).state res_a a sa hra
  have hkeep : (publish st res_b).state.pending_service_calls.find a = some pa := by
    rw [(general st b sb res_b hrb).2.2.2 a hab, ha]
  rw [hkeep] at h2
  refine ⟨?_, ?_, ?_, ?_, general⟩
  · rw [h1]; simp only [released_append, released_response_log, List.nil_append]; rfl
  · rw [h2]; simp only [released_append, released_response_log, List.nil_append]; rfl
  · rw [logged_at_key]; exact hra.2.1
  · rw [logged_at_key]; exact hrb.2.1

/-- C6 at a concrete input: `get_config` (promise 1) and `calibrate_gyro`
(promise 2) were sent in this order; the response for `calibrate_gyro` comes
first, then a failed response for `get_config` that has no `error_message`
and no `result`. -/
theorem responses_not_cross_wired_witness :
    released (publish (srv_send_command (srv_send_command sample_node "get_config" 1).1
      "calibrate_gyro" 2).1 (sample_response "calibrate_gyro" true)).events
      = [(2, sample_response "calibrate_gyro" true)] ∧
    released (publish (publish (srv_send_command
      (srv_send_command sample_node "get_config" 1).1 "calibrate_gyro" 2).1
      (sample_response "calibrate_gyro" true)).state
      (.obj [("response_to", .str "get_config"), ("success", .bool false)])).events
      = [(1, .obj [("response_to", .str "get_config"), ("success", .bool false),
          ("error_message", .null), ("result", .null)])] :=
  have h := responses_not_cross_wired
    (srv_send_command (srv_send_command sample_node "get_config" 1).1 "calibrate_gyro" 2).1
    "get_config" "calibrate_gyro" 1 2
    (.obj [("response_to", .str "get_config"), ("success", .bool false)])
    (sample_response "calibrate_gyro" true) false true
    (by decide) rfl rfl ⟨rfl, rfl, rfl⟩ ⟨rfl, rfl, rfl⟩
  ⟨h.1, h.2.1⟩

/-- C7 as stated fails: with `get_config` pending under promise 1, a second
`srv_send_command` for `get_config` is not refused as a duplicate; the command
goes out to the sensor once more. -/
theorem second_send_is_not_refused :
    (srv_send_command sample_node "get_config" 1).1.pending_service_calls.find "get_config"
      = some 1 ∧
    (srv_send_command (srv_send_command sample_node "get_config" 1).1 "get_config" 2).2.1
      = [.send_command "get_config"] ∧
    ¬ RefusedAsDuplicate (srv_send_command sample_node "get_config" 1).1
      (srv_send_command (srv_send_command sample_node "get_config" 1).1 "get_config" 2) :=
  ⟨rfl, rfl, fun h => List.cons_ne_nil _ _ h.2⟩

/-- C7, amended: when the name `n` already has a pending entry, a second send
under `n` (by `srv_send_command`, or by `srv_send_param` when `n` is
"set_config") is not refused: the command is sent to the sensor again.  The
insertion adds no entry: the node is as before the call, and the map holds
exactly one entry for `n`, the original one.  The promise of the second call
is destroyed unset, so that its `future.get()` throws instead of waiting. -/
theorem second_send_keeps_original_entry (st : NodeState) (n : String)
    (original second : Nat)
    (hpending : st.pending_service_calls.find n = some original) :
    (srv_send_command st n second).2.1 = [.send_command n] ∧
    (srv_send_command st n second).2.2 = .broken_promise ∧
    (srv_send_command st n second).1 = st ∧
    (srv_send_command st n second).1.pending_service_calls.find n = some original ∧
    (srv_send_command st n second).1.pending_service_calls.entries.filter
      (fun e => decide (e.1 = n)) = [(n, original)] ∧
    (∀ param value, n = "set_config" →
      (srv_send_param st param value second).2.1 = [.set_param param value] ∧
      (srv_send_param st param value second).2.2 = .broken_promise ∧
      (srv_send_param st param value second).1 = st) := by
  have hins := PendingMap.insert_present st.pending_service_calls n second original hpending
  have hst : (srv_send_command st n second).1 = st := by
    simp only [srv_send_command, hins]
  refine ⟨rfl, by simp [srv_send_command, hins], hst, by rw [hst]; exact hpending, ?_, ?_⟩
  · rw [hst]
    exact filter_eq_of_lookup_some n original _ st.pending_service_calls.unique_keys hpending
  · intro param value hn
    subst hn
    simp [srv_send_param, hins]

/-- C7, amended, at a concrete input: `get_config` sent twice, first with
promise 1 and then with promise 2. -/
theorem second_send_keeps_original_entry_witness :
    (srv_send_command sample_node "get_config" 1).1.pending_service_calls.find "get_config"
      = some 1 ∧
    (srv_send_command (srv_send_command sample_node "get_config" 1).1 "get_config" 2).2.2
      = .broken_promise ∧
    (srv_send_command (srv_send_command sample_node "get_config" 1).1
      "get_config" 2).1.pending_service_calls.entries = [("get_config", 1)] :=
  have hp : (srv_send_command sample_node "get_config" 1).1.pending_service_calls.find
      "get_config" = some 1 := rfl
  have h := second_send_keeps_original_entry (srv_send_command sample_node "get_config" 1).1
    "get_config" 1 2 hp
  ⟨hp, h.2.1, by rw [h.2.2.1]; rfl⟩

/-- C8, the code on a velocity report: the message carries `beam_unit_vec`,
whose four vectors have the vertical component 0.38268343236508984 and
horizontal components of magnitude 0.6532814824381883, with the signs of the
azimuths 135°, -135°, -45° and 45°.  The vertical component is
`sin(22.5°)` and the horizontal magnitude is `cos(22.5°)·cos(45°)`, each to
within `1e-15`; the vertical component is therefore more than 1/2 away from
`cos(22.5°)` and the horizontal one more than 1/3 away from
`sin(22.5°)·cos(45°)`: the vectors point 22.5° off the horizontal plane,
67.5° off the z axis.  Each vector has unit length to within `1e-15`. -/
theorem beam_unit_vec_elevation_swapped :
    (velocity_outputs (publish sample_node (sample_velocity 5 true)).events).map
      Dvl.beam_unit_vec = [beam_unit_vec] ∧
    beam_unit_vec.map Vector3.z = List.replicate 4 0.38268343236508984 ∧
    beam_unit_vec.map (fun v => (v.x, v.y)) =
      [(-0.6532814824381883, 0.6532814824381883), (-0.6532814824381883, -0.6532814824381883),
       (0.6532814824381883, -0.6532814824381883), (0.6532814824381883, 0.6532814824381883)] ∧
    beam_unit_vec.map (fun v => v.x * v.x + v.y * v.y + v.z * v.z) =
      List.replicate 4 1.0000000000000001465126127237850056 ∧
    |((0.38268343236508984 : ℚ) : ℝ) - Real.sin (Real.pi / 8)| ≤ 1e-15 ∧
    |((0.6532814824381883 : ℚ) : ℝ) - Real.cos (Real.pi / 8) * Real.cos (Real.pi / 4)|
      ≤ 1e-15 ∧
    (1 / 2 : ℝ) < |((0.38268343236508984 : ℚ) : ℝ) - Real.cos (Real.pi / 8)| ∧
    (1 / 3 : ℝ) <
      |((0.6532814824381883 : ℚ) : ℝ) - Real.sin (Real.pi / 8) * Real.cos (Real.pi / 4)| := by
  obtain ⟨slo, shi⟩ := sin_pi_div_eight_bounds
  obtain ⟨clo, chi⟩ := cos_pi_div_eight_bounds
  obtain ⟨rlo, rhi⟩ := sqrt_two_bounds
  have hcc_lo : (0.92387953251128675 : ℝ) * 1.41421356237309504
      ≤ Real.cos (Real.pi / 8) * √2 :=
    mul_le_mul clo rlo (by norm_num) (le_trans (by norm_num) clo)
  have hcc_hi : Real.cos (Real.pi / 8) * √2
      ≤ (0.92387953251128676 : ℝ) * 1.41421356237309505 :=
    mul_le_mul chi rhi (Real.sqrt_nonneg 2) (by norm_num)
  have hsc_hi : Real.sin (Real.pi / 8) * √2
      ≤ (0.38268343236508978 : ℝ) * 1.41421356237309505 :=
    mul_le_mul shi rhi (Real.sqrt_nonneg 2) (by norm_num)
  refine ⟨rfl, rfl, rfl, by norm_num [beam_unit_vec, List.replicate], ?_, ?_, ?_, ?_⟩
  · rw [abs_le]
    generalize Real.sin (Real.pi / 8) = s at slo shi
    push_cast
    constructor <;> norm_num <;> linarith
  · rw [abs_le, Real.cos_pi_div_four]
    generalize Real.cos (Real.pi / 8) = c at clo chi hcc_lo hcc_hi
    generalize √2 = r at rlo rhi hcc_lo hcc_hi
    push_cast
    constructor <;> norm_num <;> linarith
  · rw [lt_abs]
    right
    generalize Real.cos (Real.pi / 8) = c at clo chi
    push_cast
    norm_num
    linarith
  · rw [lt_abs, Real.cos_pi_div_four]
    left
    generalize Real.sin (Real.pi / 8) = s at slo shi hsc_hi
    generalize √2 = r at rlo rhi hsc_hi
    push_cast
    norm_num
    linarith

/-- C9: for a velocity report with the four beam sub-records `b0 .. b3`, the
loop over the beams leaves in `num_good_beams` the number of beams whose
`beam_valid` is true, a number from 0 to 4 counted over all four, while
`range`, `beam_quality` and `beam_velocity` hold the `distance`, `rssi` and
`velocity` of the fourth beam alone; the published message carries these
values. -/
theorem beam_loop_counts_all_keeps_last (st : NodeState) (res : Json) (b0 b1 b2 b3 : Beam)
    (hrep : IsVelocityReport res)
    (h0 : read_beam res 0 = .ok b0) (h1 : read_beam res 1 = .ok b1)
    (h2 : read_beam res 2 = .ok b2) (h3 : read_beam res 3 = .ok b3) :
    (∀ msg : Dvl, msg.num_good_beams = 0 →
      beam_loop res msg = .ok
        { msg with
          num_good_beams :=
            b0.beam_valid.toNat + b1.beam_valid.toNat + b2.beam_valid.toNat
              + b3.beam_valid.toNat,
          range := b3.distance, beam_quality := b3.rssi, beam_velocity := b3.velocity }) ∧
    b0.beam_valid.toNat + b1.beam_valid.toNat + b2.beam_valid.toNat + b3.beam_valid.toNat
      ≤ 4 ∧
    ∃ out, (publish st res).events = [.velocity_pub out] ∧
      out.num_good_beams =
        b0.beam_valid.toNat + b1.beam_valid.toNat + b2.beam_valid.toNat
          + b3.beam_valid.toNat ∧
      out.range = b3.distance ∧ out.beam_quality = b3.rssi ∧
      out.beam_velocity = b3.velocity := by
  have hle := toNat_sum_le b0.beam_valid b1.beam_valid b2.beam_valid b3.beam_valid
  have hloop : ∀ msg : Dvl, msg.num_good_beams = 0 →
      beam_loop res msg = .ok
        { msg with
          num_good_beams :=
            b0.beam_valid.toNat + b1.beam_valid.toNat + b2.beam_valid.toNat
              + b3.beam_valid.toNat,
          range := b3.distance, beam_quality := b3.rssi, beam_velocity := b3.velocity } := by
    intro msg hmsg
    rw [beam_loop_result res msg b0 b1 b2 b3 h0 h1 h2 h3, hmsg]
    have hmod : ((((0 + b0.beam_valid.toNat) % 256 + b1.beam_valid.toNat) % 256
        + b2.beam_valid.toNat) % 256 + b3.beam_valid.toNat) % 256
        = b0.beam_valid.toNat + b1.beam_valid.toNat + b2.beam_valid.toNat
          + b3.beam_valid.toNat := by
      have := toNat_sum_le b0.beam_valid b1.beam_valid b2.beam_valid false
      simp only [Bool.toNat_false, Nat.add_zero] at this
      omega
    rw [hmod]
  refine ⟨hloop, hle, ?_⟩
  obtain ⟨hk1, hk2, hok⟩ := hrep
  have hp : publish st res = velocity_report st res := by simp [publish, hk1, hk2]
  obtain ⟨m, out, hm, hout, hev⟩ := velocity_report_beams st res (hp ▸ hok st)
  rw [hloop m hm] at hout
  cases hout
  exact ⟨_, by rw [hp, hev], rfl, rfl, rfl, rfl⟩

/-- C9 at a concrete input: beams 1 and 3 valid, beams 2 and 4 not; the fourth
beam has distance 4, rssi -33 and velocity 5. -/
theorem beam_loop_counts_all_keeps_last_witness :
    IsVelocityReport (sample_velocity 5 true) ∧
    ∃ out, (publish sample_node (sample_velocity 5 true)).events = [.velocity_pub out] ∧
      out.num_good_beams = 2 ∧ out.range = 4 ∧ out.beam_quality = -33 ∧
      out.beam_velocity = 5 :=
  ⟨sample_velocity_is_report 5 true,
    (beam_loop_counts_all_keeps_last sample_node (sample_velocity 5 true)
      ⟨true, 1, -30, 0⟩ ⟨false, 2, -31, 1⟩ ⟨true, 3, -32, 2⟩ ⟨false, 4, -33, 5⟩
      (sample_velocity_is_report 5 true) rfl rfl rfl rfl).2.2⟩

/-- C10: for a dead-reckoning report whose `ts` is a double with
`0 <= ts < 4e9` (and whose other members are numbers), `publish` hands one
odometry message to the publisher, and its stamp in nanoseconds is
`floor(ts) * 10^9`: the seconds are cut to a whole number before they are
scaled, so the stamp is a multiple of `10^9`, and reports whose `ts` have the
same whole part get the same stamp. -/
theorem dead_reckoning_stamp_whole_seconds (st : NodeState) (res : Json)
    (ts x y z std_dev roll pitch yaw : ℚ)
    (h1 : res.contains "response_to" = false) (h2 : res.contains "altitude" = false)
    (h3 : res.contains "pitch" = true)
    (hts : read_double res "ts" = .ok ts) (hx : read_double res "x" = .ok x)
    (hy : read_double res "y" = .ok y) (hz : read_double res "z" = .ok z)
    (hstd : read_double res "std" = .ok std_dev) (hroll : read_double res "roll" = .ok roll)
    (hpitch : read_double res "pitch" = .ok pitch) (hyaw : read_double res "yaw" = .ok yaw)
    (h0 : 0 ≤ ts) (h4 : ts < 4000000000) :
    publish st res =
      ⟨st, [.odom_pub
        { frame_id := st.frame, stamp := (Rat.floor ts).toNat * 1000000000,
          position := ⟨x, y, z⟩,
          covariance :=
            ((Odometry.fresh.covariance.set 0 std_dev).set 7 std_dev).set 14 std_dev,
          orientation := ⟨roll, pitch, yaw⟩ }], none⟩ ∧
    dead_reckoning_stamp ts = .ok ((Rat.floor ts).toNat * 1000000000) ∧
    (∀ ts' : ℚ, 0 ≤ ts' → ts' < 4000000000 → Rat.floor ts' = Rat.floor ts →
      dead_reckoning_stamp ts' = dead_reckoning_stamp ts) := by
  have hstamp := dead_reckoning_stamp_eq ts h0 h4
  refine ⟨?_, hstamp, fun ts' h0' h4' hfl => ?_⟩
  · simp only [publish, h1, h2, h3, dead_reckoning_report, dead_reckoning_msg, hts, hx, hy,
      hz, hstd, hroll, hpitch, hyaw, Except.bind, hstamp]
    simp
  · rw [hstamp, dead_reckoning_stamp_eq ts' h0' h4', hfl]

/-- C10 at a concrete input: a report stamped 1700000000.75 s. -/
theorem dead_reckoning_stamp_whole_seconds_witness :
    (0 : ℚ) ≤ 1700000000.75 ∧ (1700000000.75 : ℚ) < 4000000000 ∧
    odom_outputs (publish sample_node (sample_position 1700000000.75)).events
      = [{ frame_id := "dvl_a50_link", stamp := 1700000000000000000,
           position := ⟨1, 2, 3⟩,
           covariance := ((Odometry.fresh.covariance.set 0 0).set 7 0).set 14 0,
           orientation := ⟨0, 0, 0⟩ }] := by
  have h0 : (0 : ℚ) ≤ 1700000000.75 := by norm_num
  have h4 : (1700000000.75 : ℚ) < 4000000000 := by norm_num
  have h := dead_reckoning_stamp_whole_seconds sample_node (sample_position 1700000000.75)
    1700000000.75 1 2 3 0 0 0 0 rfl rfl rfl rfl rfl rfl rfl rfl rfl rfl rfl h0 h4
  have hfl : (Rat.floor (1700000000.75 : ℚ)).toNat = 1700000000 := by
    have : Rat.floor (1700000000.75 : ℚ) = 1700000000 := by
      show ⌊(1700000000.75 : ℚ)⌋ = 1700000000
      rw [Int.floor_eq_iff]
      norm_num
    rw [this]
    rfl
  refine ⟨h0, h4, ?_⟩
  rw [h.1, hfl]
  rfl

end DvlA50
